import Mathlib

/-!
Verification of the AI-adapter module `src/services/geminiService.ts` of
AUTO_SCAN_MAROC_YAKIN2: a shallow embedding of its six request functions
(`analyzeVehicleByVin`, `analyzeVehicleCritical`, `analyzeVehicleDetails`,
`getVinAnalysisReport`, `chatWithExpert`, `estimateMarketValue`) together
with the JavaScript primitives they rely on (truthiness, `String(...)`
coercion, `split`, `trim`, `toUpperCase`, regex stripping, `JSON.parse` /
`JSON.stringify`), and proofs of the behavioural properties of the module.

The oracle (the generative-AI service) is modelled as a function from the
built request to the optional reply text (`response.text : string |
undefined`), so that "the call never reaches the oracle" is expressible as
the result being the same for every oracle.
-/

namespace AutoScan

/-! ## JavaScript values

JSON values as `JSON.parse` produces them. Numbers are modelled as
integers (the adapter's response schemas only declare `STRING` and
`INTEGER` fields); a fractional or exponent part is not represented, so
`jsonParse` rejects such input where `JSON.parse` would accept it. -/

inductive JSValue where
  | null : JSValue
  | bool : Bool → JSValue
  | num : Int → JSValue
  | str : String → JSValue
  | arr : List JSValue → JSValue
  | obj : List (String × JSValue) → JSValue
  deriving Repr, Inhabited

mutual

/-- Decidable equality of JS values. -/
def jsBeq : JSValue → JSValue → Bool
  | .null, .null => true
  | .bool a, .bool b => a == b
  | .num a, .num b => a == b
  | .str a, .str b => a == b
  | .arr a, .arr b => jsBeqList a b
  | .obj a, .obj b => jsBeqFields a b
  | _, _ => false

/-- Decidable equality of JS value lists. -/
def jsBeqList : List JSValue → List JSValue → Bool
  | [], [] => true
  | a :: as1, b :: bs => jsBeq a b && jsBeqList as1 bs
  | _, _ => false

/-- Decidable equality of JS object field lists. -/
def jsBeqFields : List (String × JSValue) → List (String × JSValue) → Bool
  | [], [] => true
  | (k, a) :: as1, (l, b) :: bs => k == l && jsBeq a b && jsBeqFields as1 bs
  | _, _ => false

end

/-- JavaScript truthiness: `undefined`, `null`, `false`, `0`, `NaN` and the
empty string are falsy, everything else (objects and arrays included) is
truthy. -/
def truthy : JSValue → Bool
  | .null => false
  | .bool b => b
  | .num n => n != 0
  | .str s => s != ""
  | .arr _ => true
  | .obj _ => true

/-- The expression `x || d` where `x` may be `undefined` (modelled as
`none`): yields `d` exactly when `x` is absent or falsy. -/
def jsOr (x : Option JSValue) (d : JSValue) : JSValue :=
  match x with
  | none => d
  | some v => if truthy v then v else d

/-- Property lookup in a field list; JS objects built by `JSON.parse` keep
the last of duplicate keys, so the last matching binding wins. `none` is
JavaScript's `undefined`. -/
def jsGetField (fields : List (String × JSValue)) (key : String) : Option JSValue :=
  match fields with
  | [] => none
  | (k, v) :: rest =>
    match jsGetField rest key with
    | some w => some w
    | none => if k = key then some v else none

/-- Property access `v.key`: only objects carry properties; on other
non-null values JS yields `undefined`. (Access on `null` raises a
TypeError; the adapter code is modelled to check for that case where it
can arise.) -/
def jsGet (v : JSValue) (key : String) : Option JSValue :=
  match v with
  | .obj fields => jsGetField fields key
  | _ => none

mutual

/-- Rendering of one array element inside `Array.prototype.toString`:
`null` (and `undefined`, which `JSON.parse` never yields) render empty.
Mutually recursive with `jsStringRec`. -/
def jsStringElems : List JSValue → List String
  | [] => []
  | .null :: vs => "" :: jsStringElems vs
  | v :: vs => jsStringRec v :: jsStringElems vs

/-- JavaScript `String(v)` coercion: numbers print in decimal, arrays
comma-join their elements, plain objects print as "[object Object]". -/
def jsStringRec : JSValue → String
  | .null => "null"
  | .bool true => "true"
  | .bool false => "false"
  | .num n => toString n
  | .str s => s
  | .arr vs => String.intercalate "," (jsStringElems vs)
  | .obj _ => "[object Object]"

end

/-! ## JavaScript string primitives used by the adapter -/

/-- Whitespace as `String.prototype.trim` and the JSON grammar treat it
(the four ASCII whitespace characters; JS trims a few more exotic Unicode
spaces, which never occur in the adapter's data). -/
def isWS (c : Char) : Bool :=
  c = ' ' || c = '\t' || c = '\n' || c = '\r'

/-- Embedding of `String.prototype.trim`: drop whitespace from both ends. -/
def jsTrim (s : String) : String :=
  String.mk (((s.data.dropWhile isWS).reverse.dropWhile isWS).reverse)

/-- Embedding of `String.prototype.toUpperCase` (ASCII case mapping, which
is all the adapter's sentinels and the VIN alphabet exercise); `Char.toUpper`
maps `a`-`z` to `A`-`Z` and fixes everything else in the ASCII range. -/
def jsToUpperCase (s : String) : String :=
  String.mk (s.data.map Char.toUpper)

/-- The character class `[A-Z0-9]` with the `i` flag, i.e. `[A-Za-z0-9]`:
what `.replace(/[^A-Z0-9]/gi, '')` keeps. -/
def isVinKeep (c : Char) : Bool :=
  decide (('A' ≤ c ∧ c ≤ 'Z') ∨ ('a' ≤ c ∧ c ≤ 'z') ∨ ('0' ≤ c ∧ c ≤ '9'))

/-- Embedding of `.replace(/[^A-Z0-9]/gi, '')`: delete every character that
is not ASCII alphanumeric. -/
def jsReplaceNonAlnum (s : String) : String :=
  String.mk (s.data.filter isVinKeep)

/-- Embedding of `String.prototype.split` with a one-character separator
(on a character list). `split` never drops segments: `"".split(',')` is
`[""]` and `",".split(',')` is `["", ""]`. -/
def splitChar (sep : Char) : List Char → List (List Char)
  | [] => [[]]
  | c :: cs =>
    if c = sep then [] :: splitChar sep cs
    else
      match splitChar sep cs with
      | [] => [[c]]
      | g :: gs => (c :: g) :: gs

/-- `String.prototype.split` with a one-character separator. -/
def jsSplit (s : String) (sep : Char) : List String :=
  (splitChar sep s.data).map String.mk

/-- The expression `x || d` on a possibly-undefined string (`undefined` and
`""` are falsy). -/
def jsOrString (x : Option String) (d : String) : String :=
  match x with
  | none => d
  | some s => if s = "" then d else s

/-- The inline-data expression both image functions build:
`base64Image.split(',')[1] || base64Image` — the second comma-separated
segment when it exists and is non-empty, the whole input otherwise. -/
def stripDataUriPayload (base64Image : String) : String :=
  jsOrString ((jsSplit base64Image ',').get? 1) base64Image

/-- Embedding of `String.prototype.substring(a, b)` for `a ≤ b`: the
characters from index `a` (inclusive) to `b` (exclusive), both clamped to
the string's length. -/
def jsSubstring (s : String) (a b : Nat) : String :=
  String.mk ((s.data.take b).drop a)

/-! ## JSON.stringify -/

/-- The decimal digit characters. -/
def digitChar (d : Nat) : Char :=
  match d with
  | 0 => '0' | 1 => '1' | 2 => '2' | 3 => '3' | 4 => '4'
  | 5 => '5' | 6 => '6' | 7 => '7' | 8 => '8' | _ => '9'

/-- Decimal digits of a positive number, most significant first; `fuel`
bounds the recursion (`fuel ≥ n` is enough). -/
def natDigitsAux : Nat → Nat → List Char
  | 0, _ => []
  | fuel + 1, n => if n = 0 then [] else natDigitsAux fuel (n / 10) ++ [digitChar (n % 10)]

/-- Decimal rendering of a natural number. -/
def natDigits (n : Nat) : List Char :=
  if n = 0 then ['0'] else natDigitsAux n n

/-- Decimal rendering of an integer, as JS prints integral numbers. -/
def intChars (n : Int) : List Char :=
  if n < 0 then '-' :: natDigits n.natAbs else natDigits n.toNat

/-- Lowercase hexadecimal digit, as `JSON.stringify` uses in `\u00xx`
escapes. -/
def hexChar (d : Nat) : Char :=
  match d with
  | 0 => '0' | 1 => '1' | 2 => '2' | 3 => '3' | 4 => '4'
  | 5 => '5' | 6 => '6' | 7 => '7' | 8 => '8' | 9 => '9'
  | 10 => 'a' | 11 => 'b' | 12 => 'c' | 13 => 'd' | 14 => 'e' | _ => 'f'

/-- `JSON.stringify`'s escaping of one character inside a string literal:
quote and backslash get a backslash escape, the named control characters
their short forms, other control characters a `\u00xx` escape, and
everything else stands for itself. -/
def escapeChar (c : Char) : List Char :=
  if c = '"' then ['\\', '"']
  else if c = '\\' then ['\\', '\\']
  else if c = '\x08' then ['\\', 'b']
  else if c = '\x09' then ['\\', 't']
  else if c = '\x0a' then ['\\', 'n']
  else if c = '\x0c' then ['\\', 'f']
  else if c = '\x0d' then ['\\', 'r']
  else if c.toNat < 32 then ['\\', 'u', '0', '0', hexChar (c.toNat / 16), hexChar (c.toNat % 16)]
  else [c]

/-- A JSON string literal: quoted, characters escaped. -/
def quoteString (s : String) : List Char :=
  '"' :: ((s.data.map escapeChar).flatten ++ ['"'])

mutual

/-- `JSON.stringify` (default formatting: no added whitespace), producing
a character list. -/
def stringifyChars : JSValue → List Char
  | .null => "null".data
  | .bool true => "true".data
  | .bool false => "false".data
  | .num n => intChars n
  | .str s => quoteString s
  | .arr vs => '[' :: (stringifyElems vs ++ [']'])
  | .obj fs => '{' :: (stringifyFields fs ++ ['}'])

/-- Array elements, comma-separated. -/
def stringifyElems : List JSValue → List Char
  | [] => []
  | [v] => stringifyChars v
  | v :: vs => stringifyChars v ++ ',' :: stringifyElems vs

/-- Object members `"key":value`, comma-separated. -/
def stringifyFields : List (String × JSValue) → List Char
  | [] => []
  | [(k, v)] => quoteString k ++ ':' :: stringifyChars v
  | (k, v) :: fs => quoteString k ++ ':' :: stringifyChars v ++ ',' :: stringifyFields fs

end

/-- `JSON.stringify` as a string-valued function. -/
def jsonStringify (v : JSValue) : String :=
  String.mk (stringifyChars v)

/-! ## JSON.parse

A recursive-descent parser for the JSON grammar, with an explicit fuel
bound on nesting (the input's length plus one is always enough, see
`parseValue_stringify`). `none` models the `SyntaxError` that `JSON.parse`
throws. Two deliberate simplifications of the embedding: number literals
are integral (no fraction/exponent, matching the modelled value space),
and a string body accepts raw control characters that strict JSON would
reject — neither affects any input the proofs below exercise, and both
only concern inputs on which acceptance differs, never the value parsed. -/

/-- Skip insignificant JSON whitespace. -/
def skipWS (cs : List Char) : List Char :=
  cs.dropWhile isWS

/-- Value of a hexadecimal digit. -/
def hexVal (c : Char) : Option Nat :=
  if '0' ≤ c ∧ c ≤ '9' then some (c.toNat - 48)
  else if 'a' ≤ c ∧ c ≤ 'f' then some (c.toNat - 87)
  else if 'A' ≤ c ∧ c ≤ 'F' then some (c.toNat - 55)
  else none

/-- The character a short escape `\x` stands for. -/
def shortEscape (e : Char) : Option Char :=
  if e = '"' then some '"'
  else if e = '\\' then some '\\'
  else if e = '/' then some '/'
  else if e = 'b' then some '\x08'
  else if e = 'f' then some '\x0c'
  else if e = 'n' then some '\x0a'
  else if e = 'r' then some '\x0d'
  else if e = 't' then some '\x09'
  else none

/-- Parse the body of a JSON string literal after its opening quote:
the decoded characters, and the input after the closing quote. -/
def parseStringRest : List Char → Option (List Char × List Char)
  | [] => none
  | c :: cs =>
    if c = '"' then some ([], cs)
    else if c = '\\' then
      match cs with
      | [] => none
      | e :: cs1 =>
        if e = 'u' then
          match cs1 with
          | h1 :: h2 :: h3 :: h4 :: cs2 =>
            match hexVal h1, hexVal h2, hexVal h3, hexVal h4 with
            | some a, some b, some c3, some d =>
              match parseStringRest cs2 with
              | some (content, rest) =>
                some (Char.ofNat (((a * 16 + b) * 16 + c3) * 16 + d) :: content, rest)
              | none => none
            | _, _, _, _ => none
          | _ => none
        else
          match shortEscape e with
          | none => none
          | some d =>
            match parseStringRest cs1 with
            | some (content, rest) => some (d :: content, rest)
            | none => none
    else
      match parseStringRest cs with
      | some (content, rest) => some (c :: content, rest)
      | none => none

/-- Accumulating decimal-number reader: consume leading digits. -/
def parseNatAux (acc : Nat) : List Char → Nat × List Char
  | [] => (acc, [])
  | c :: cs =>
    if c.isDigit then parseNatAux (acc * 10 + (c.toNat - 48)) cs
    else (acc, c :: cs)

/-- Parse an integral JSON number (optional minus sign, then digits). -/
def parseNumber : List Char → Option (Int × List Char)
  | [] => none
  | c :: cs =>
    if c = '-' then
      match cs with
      | [] => none
      | c1 :: _ =>
        if c1.isDigit then
          match parseNatAux 0 cs with
          | (n, rest) => some (-(n : Int), rest)
        else none
    else if c.isDigit then
      match parseNatAux 0 (c :: cs) with
      | (n, rest) => some ((n : Int), rest)
    else none

mutual

/-- Parse one JSON value; the result pairs the value with the unconsumed
input. `fuel` bounds the recursion into subvalues. -/
def parseValue : Nat → List Char → Option (JSValue × List Char)
  | 0, _ => none
  | fuel + 1, cs =>
    match skipWS cs with
    | [] => none
    | c :: rest =>
      if c = 'n' then
        match rest with
        | 'u' :: 'l' :: 'l' :: rest1 => some (.null, rest1)
        | _ => none
      else if c = 't' then
        match rest with
        | 'r' :: 'u' :: 'e' :: rest1 => some (.bool true, rest1)
        | _ => none
      else if c = 'f' then
        match rest with
        | 'a' :: 'l' :: 's' :: 'e' :: rest1 => some (.bool false, rest1)
        | _ => none
      else if c = '"' then
        match parseStringRest rest with
        | some (content, rest1) => some (.str (String.mk content), rest1)
        | none => none
      else if c = '[' then
        match skipWS rest with
        | ']' :: rest1 => some (.arr [], rest1)
        | _ =>
          match parseElems fuel rest with
          | some (vs, rest1) => some (.arr vs, rest1)
          | none => none
      else if c = '{' then
        match skipWS rest with
        | '}' :: rest1 => some (.obj [], rest1)
        | _ =>
          match parseFields fuel rest with
          | some (fs, rest1) => some (.obj fs, rest1)
          | none => none
      else
        match parseNumber (c :: rest) with
        | some (n, rest1) => some (.num n, rest1)
        | none => none

/-- Parse one or more comma-separated array elements and the closing
bracket. -/
def parseElems : Nat → List Char → Option (List JSValue × List Char)
  | 0, _ => none
  | fuel + 1, cs =>
    match parseValue fuel cs with
    | none => none
    | some (v, rest) =>
      match skipWS rest with
      | ',' :: rest1 =>
        match parseElems fuel rest1 with
        | some (vs, rest2) => some (v :: vs, rest2)
        | none => none
      | ']' :: rest1 => some ([v], rest1)
      | _ => none

/-- Parse one or more comma-separated object members and the closing
brace. -/
def parseFields : Nat → List Char → Option (List (String × JSValue) × List Char)
  | 0, _ => none
  | fuel + 1, cs =>
    match skipWS cs with
    | '"' :: rest =>
      match parseStringRest rest with
      | none => none
      | some (key, rest1) =>
        match skipWS rest1 with
        | ':' :: rest2 =>
          match parseValue fuel rest2 with
          | none => none
          | some (v, rest3) =>
            match skipWS rest3 with
            | ',' :: rest4 =>
              match parseFields fuel rest4 with
              | some (fs, rest5) => some ((String.mk key, v) :: fs, rest5)
              | none => none
            | '}' :: rest4 => some ([(String.mk key, v)], rest4)
            | _ => none
        | _ => none
    | _ => none

end

/-- `JSON.parse`: parse the whole text as one JSON value, allowing
surrounding whitespace; `none` models a thrown `SyntaxError`. -/
def jsonParse (s : String) : Option JSValue :=
  match parseValue (s.data.length + 1) s.data with
  | some (v, rest) => if (skipWS rest).isEmpty then some v else none
  | none => none

/-! ## The adapter's data model -/

/-- JavaScript exceptions the adapter can raise: `error msg` models
`throw new Error(msg)`; `syntaxError` the SyntaxError `JSON.parse` throws
on malformed text; `typeError` the TypeError of property access on `null`. -/
inductive JSError where
  | error (msg : String) : JSError
  | syntaxError : JSError
  | typeError : JSError
  deriving Repr, DecidableEq

/-- A field type in a declared structured-output schema (`Type.STRING` /
`Type.INTEGER` from the client library, optionally with an `enum` list). -/
inductive SchemaType where
  | string : SchemaType
  | stringEnum (vals : List String) : SchemaType
  | integer : SchemaType
  deriving Repr, DecidableEq

/-- One property of a response schema (name, type, optional description). -/
structure SchemaProp where
  name : String
  type : SchemaType
  description : Option String := none
  deriving Repr, DecidableEq

/-- A `responseSchema` declaration: an OBJECT schema with properties and a
required-field list. -/
structure ResponseSchema where
  properties : List SchemaProp
  required : List String
  deriving Repr, DecidableEq

/-- One part of the request contents: plain text, or inline binary data
with a MIME type. A plain-string `contents` is the one-text-part case. -/
inductive RequestPart where
  | text : String → RequestPart
  | inlineData (mimeType : String) (data : String) : RequestPart
  deriving Repr, DecidableEq

/-- A `generateContent` request as the adapter builds it. -/
structure OracleRequest where
  model : String
  parts : List RequestPart
  systemInstruction : String
  responseMimeType : Option String := none
  responseSchema : Option ResponseSchema := none
  deriving Repr, DecidableEq

/-- Modelled from the spec: `Content` comes from the external client
library (not part of this repository); the spec describes the history as
"an ordered sequence of role-tagged message turns". -/
structure Content where
  role : String
  text : String
  deriving Repr, DecidableEq

/-- A chat invocation as `chatWithExpert` builds it: `ai.chats.create`
with model, persona instruction and seed history, then one `sendMessage`. -/
structure ChatRequest where
  model : String
  systemInstruction : String
  history : List Content
  message : String
  deriving Repr, DecidableEq

/-- Modelled from the spec: `ScanType` lives in `../types`, which is not
among the repository's source files; the spec describes it as an enumerated
tag selecting a prompt variant (default `'vin'`), used only interpolated
into the request text, so it is modelled by its string value. -/
abbrev ScanType := String

/-- Modelled from the spec: `VehicleAnalysis` lives in `../types`, which is
not among the repository's source files. Spec §3 lists its fields — vin,
brand, model, deductionReasoning, yearOfManufacture, registrationYear,
motorization, fuelType, color, licensePlate, inventoryNotes,
marketValueMin, marketValueMax, marketValueJustification — all optional;
the two market bounds are integers per `estimateMarketValue`'s schema. -/
structure VehicleAnalysis where
  vin : Option String := none
  brand : Option String := none
  model : Option String := none
  deductionReasoning : Option String := none
  yearOfManufacture : Option String := none
  registrationYear : Option String := none
  motorization : Option String := none
  fuelType : Option String := none
  color : Option String := none
  licensePlate : Option String := none
  inventoryNotes : Option String := none
  marketValueMin : Option Int := none
  marketValueMax : Option Int := none
  marketValueJustification : Option String := none
  deriving Repr, DecidableEq

/-- Template-literal interpolation of a possibly-undefined string: JS
renders `undefined` as the text "undefined". -/
def tmplOpt (x : Option String) : String :=
  match x with
  | none => "undefined"
  | some s => s

/-- The guard inside `getAIClient`: `!process.env.API_KEY` is true when
the environment variable is absent or the empty string. -/
def apiKeyMissing (apiKey : Option String) : Bool :=
  match apiKey with
  | none => true
  | some k => k == ""

/-- The configuration error `getAIClient` throws when the key is missing. -/
def missingKeyError : JSError := .error "Clé API Google Gemini manquante"

/-! ## The six operations

Each function takes the optional API key (read from the process
environment at call time), its own inputs, and the oracle as a function
from the built request to the optional reply text `response.text`. -/

/-- System prompt of `analyzeVehicleByVin`. -/
def analyzeVehicleByVinSystemPrompt (vin : String) : String :=
  "Tu es KHABIR, expert automobile certifié au Maroc. \n       À partir de ce numéro VIN : " ++ vin ++ ", effectue un décodage ISO 3779 rigoureux.\n       \n       RÈGLES D'IDENTIFICATION :\n       1. Examine le VDS (caractères 4 à 9). Pour le groupe VAG (Audi, VW, Seat), les positions 7 et 8 sont critiques pour le code modèle (ex: 8X=A1, F5=A5, 5F=Leon, 51=Ateca).\n       2. Ne confonds pas les segments. Si les positions 7-8 indiquent '5F', le modèle est 'LEON', pas 'ATECA'.\n       3. Croise avec le marché MAROCAIN (importateurs officiels comme CAC, Sopriam, Renault Commerce Maroc).\n       \n       CHAMPS REQUIS :\n       - brand : Constructeur.\n       - model : Modèle commercial exact au Maroc.\n       - deductionReasoning : Explique précisément quel code VDS (positions 4-9) ou VIS a permis d'identifier le modèle (ex: \"Identifié comme Audi A1 grâce au code VDS '8X' en positions 7-8\").\n       - yearOfManufacture : Année code (Position 10).\n       - motorization : Motorisation standard au Maroc.\n       - fuelType : [\"Essence\", \"Diesel\", \"Hybride\", \"Électrique\", \"N/A\"].\n       - color : Couleur probable.\n       \n       Réponds uniquement en JSON pur."

/-- The request `analyzeVehicleByVin` sends. -/
def analyzeVehicleByVinRequest (vin : String) : OracleRequest where
  model := "gemini-3-flash-preview"
  parts := [.text ("Décoder précisément le VIN : " ++ vin ++ " selon ISO 3779. JSON.")]
  systemInstruction := analyzeVehicleByVinSystemPrompt vin
  responseMimeType := some "application/json"
  responseSchema := some
    { properties :=
        [ { name := "brand", type := .string },
          { name := "model", type := .string },
          { name := "deductionReasoning", type := .string },
          { name := "yearOfManufacture", type := .string },
          { name := "motorization", type := .string },
          { name := "fuelType", type := .stringEnum ["Essence", "Diesel", "Hybride", "Électrique", "N/A"] },
          { name := "color", type := .string } ],
      required := ["brand", "model", "deductionReasoning", "yearOfManufacture", "motorization", "fuelType"] }

/-- Embedding of `analyzeVehicleByVin`: decode a vehicle from its VIN text.
Empty or absent reply text yields the empty partial `{}` (silent
degradation); otherwise the trimmed text is parsed as JSON and returned
as-is, a parse failure propagating uncaught. -/
def analyzeVehicleByVin (apiKey : Option String) (vin : String)
    (oracle : OracleRequest → Option String) : Except JSError JSValue :=
  if apiKeyMissing apiKey then .error missingKeyError
  else
    match oracle (analyzeVehicleByVinRequest vin) with
    | none => .ok (.obj [])
    | some t =>
      if t = "" then .ok (.obj [])
      else
        match jsonParse (jsTrim t) with
        | some v => .ok v
        | none => .error .syntaxError

/-- System prompt of `analyzeVehicleCritical`. -/
def analyzeVehicleCriticalSystemPrompt : String :=
  "Tu es KHABIR, expert extraction documentaire automobile au Maroc.\n       Ta mission est d'extraire le VIN (Numéro de Châssis) de l'image.\n       \n       RÈGLES CRITIQUES (ISO 3779 & NM ISO 3779 Maroc) :\n       1. VIN = 17 caractères alphanumériques (0-9, A-Z sauf I, O, Q pour éviter confusion).\n       2. Isole la zone du VIN (pare-brise, portière, carte grise) et OCR le texte.\n       3. CORRIGE les erreurs d'OCR courantes :\n          - 'I' -> '1'\n          - 'O' -> '0'\n          - 'Q' -> '0'\n          - 'B' -> '8'\n          - 'S' -> '5'\n          - 'Z' -> '2'\n       \n       ANALYSE DU VÉHICULE (DÉDUCTION) :\n       - Utilise le WMI (3 premiers chars) pour la Marque/Pays.\n       - Utilise le VDS (chars 4-9) pour le Modèle/Moteur.\n       - Utilise le caractère 10 pour l'Année Modèle (Code Année).\n       \n       EXTRAIRE :\n       - brand : Nom du constructeur (Uppercased).\n       - model : Modèle déduit du VDS.\n       - vin : Le VIN corrigé de 17 caractères.\n       - deductionReasoning : \"Identifié [Marque] [Modèle] grâce au code WMI [XXX] et VDS [XXXX].\"\n       - yearOfManufacture : Année déduite du 10ème caractère.\n       - licensePlate : Immatriculation (si visible).\n       - registrationYear : Année 1ère mise en circulation (si visible carte grise).\n       \n       Réponds uniquement en JSON pur.\n       FORMAT DATES : Années de 4 chiffres (YYYY)."

/-- The request `analyzeVehicleCritical` sends: the image payload with any
data-URI prefix stripped, plus a mode-tagged instruction. -/
def analyzeVehicleCriticalRequest (base64Image : String) (mode : ScanType) : OracleRequest where
  model := "gemini-3-flash-preview"
  parts :=
    [ .inlineData "image/jpeg" (stripDataUriPayload base64Image),
      .text ("Analyse critique ISO 3779 image de " ++ mode ++ ". JSON.") ]
  systemInstruction := analyzeVehicleCriticalSystemPrompt
  responseMimeType := some "application/json"
  responseSchema := some
    { properties :=
        [ { name := "vin", type := .string },
          { name := "brand", type := .string },
          { name := "model", type := .string },
          { name := "deductionReasoning", type := .string },
          { name := "yearOfManufacture", type := .string },
          { name := "licensePlate", type := .string },
          { name := "registrationYear", type := .string } ],
      required := ["brand", "vin", "model"] }

/-- Embedding of `analyzeVehicleCritical`: extract the VIN (and identity
fields) from an image. An empty or absent reply raises
`Error("IA_EMPTY_RESPONSE")`; a non-empty reply is trimmed and JSON-parsed
(a failure propagating as the parse's SyntaxError), then deterministically
post-processed: VIN stripped to ASCII alphanumerics and uppercased,
brand/model uppercased with sentinels, year/plate fields coerced to
strings. (Property access on a parsed `null` raises a TypeError in JS.)
The TS parameter `mode` defaults to `'vin'`. -/
def analyzeVehicleCritical (apiKey : Option String) (base64Image : String)
    (mode : ScanType) (oracle : OracleRequest → Option String) : Except JSError JSValue :=
  if apiKeyMissing apiKey then .error missingKeyError
  else
    match oracle (analyzeVehicleCriticalRequest base64Image mode) with
    | none => .error (.error "IA_EMPTY_RESPONSE")
    | some t =>
      if t = "" then .error (.error "IA_EMPTY_RESPONSE")
      else
        match jsonParse (jsTrim t) with
        | none => .error .syntaxError
        | some rawData =>
          match rawData with
          | .null => .error .typeError
          | _ =>
            .ok (.obj
              [ ("vin", .str (jsToUpperCase (jsReplaceNonAlnum (jsStringRec (jsOr (jsGet rawData "vin") (.str "")))))),
                ("brand", .str (jsToUpperCase (jsStringRec (jsOr (jsGet rawData "brand") (.str "Inconnu"))))),
                ("model", .str (jsToUpperCase (jsStringRec (jsOr (jsGet rawData "model") (.str "ANALYSE..."))))),
                ("deductionReasoning", jsOr (jsGet rawData "deductionReasoning") (.str "")),
                ("yearOfManufacture", .str (jsStringRec (jsOr (jsGet rawData "yearOfManufacture") (.str "N/A")))),
                ("licensePlate", .str (jsStringRec (jsOr (jsGet rawData "licensePlate") (.str "")))),
                ("registrationYear", .str (jsStringRec (jsOr (jsGet rawData "registrationYear") (.str "")))) ])

/-- System prompt of `analyzeVehicleDetails`. -/
def analyzeVehicleDetailsSystemPrompt (brand : String) : String :=
  "Expert automobile spécialiste du marché MAROCAIN (KABIR).\n       À partir de cette image et sachant que la marque est " ++ brand ++ ", affine l'analyse.\n       \n       CONTEXTE MARCHÉ MAROC (Réglementation NM ISO 3779):\n       - Le VIN doit être conforme.\n       - Les motorisations sont souvent spécifiques (ex: 1.5 dCi, 2.0 TDI, 2.2 CDI).\n       - IMPORTATEURS OFFICIELS :\n         * Audi/VW/Skoda/Porsche/Bentley -> CAC (Centrale Automobile Chérifienne)\n         * Peugeot/Citroën/DS -> SOPRIAM\n         * Renault/Dacia -> RENAULT COMMERCE MAROC\n         * Toyota -> TOYOTA DU MAROC\n         * Fiat/Jeep/Alfa -> STELLANTIS MAROC\n         * BMW/Mini -> SMEIA\n         * Mercedes -> AUTO NEJMA\n         * Hyundai -> GLOBAL ENGINES\n         * Kia -> KIA MAROC\n       \n       CHAMPS À AFFINER :\n       - model : Version/finition exacte si identifiable (ex: \"Golf 8 R-Line\").\n       - motorization : DÉDUCTION LOGIQUE via VIN et Visuel (ex: sigle 'TDI', échappement).\n       - fuelType : [\"Essence\", \"Diesel\", \"Hybride\", \"Électrique\", \"N/A\"].\n       - color : Nom commercial approximatif (ex: \"Gris Nardo\", \"Blanc Nacré\").\n       - registrationYear : Année 1ère mise en circulation.\n       - deductionReasoning : EXPLIQUE COMMENT le modèle et le moteur sont déduits (Code Moteur dans le VIN ? Logo ?).\n       \n       Réponds uniquement en JSON pur."

/-- The request `analyzeVehicleDetails` sends. -/
def analyzeVehicleDetailsRequest (base64Image brand : String) : OracleRequest where
  model := "gemini-3-flash-preview"
  parts :=
    [ .inlineData "image/jpeg" (stripDataUriPayload base64Image),
      .text ("Analyse détaillée pour " ++ brand ++ ". JSON.") ]
  systemInstruction := analyzeVehicleDetailsSystemPrompt brand
  responseMimeType := some "application/json"
  responseSchema := some
    { properties :=
        [ { name := "model", type := .string },
          { name := "motorization", type := .string },
          { name := "fuelType", type := .stringEnum ["Essence", "Diesel", "Hybride", "Électrique", "N/A"] },
          { name := "color", type := .string },
          { name := "registrationYear", type := .string },
          { name := "deductionReasoning", type := .string } ],
      required := [] }

/-- Embedding of `analyzeVehicleDetails`: refine the analysis from an
image given a known brand. Empty or absent reply yields the empty partial
`{}`; otherwise the trimmed text is JSON-parsed and returned as-is. -/
def analyzeVehicleDetails (apiKey : Option String) (base64Image brand : String)
    (oracle : OracleRequest → Option String) : Except JSError JSValue :=
  if apiKeyMissing apiKey then .error missingKeyError
  else
    match oracle (analyzeVehicleDetailsRequest base64Image brand) with
    | none => .ok (.obj [])
    | some t =>
      if t = "" then .ok (.obj [])
      else
        match jsonParse (jsTrim t) with
        | some v => .ok v
        | none => .error .syntaxError

/-- System prompt of `getVinAnalysisReport`, with the fixed-offset VIN
decomposition table (`vin.substring(0, 3)`, `vin.substring(3, 9)`,
`vin.substring(9, 17)`). -/
def getVinAnalysisReportSystemPrompt (vin : String) : String :=
  "Tu es KHABIR, expert automobile officiel au Maroc.\n       Rédige un rapport d'expertise technique pour le VIN : " ++ vin ++ ".\n       Le rapport doit rassurer l'acheteur et prouver la conformité.\n       \n       STRUCTURE DU RAPPORT (Format Markdown) :\n       \n       ### 1. 🚘 Identité & Conformité\n       - **Marque/Modèle** : [Nom]\n       - **Origine** : [Pays détecté via WMI]\n       - **Importateur Maroc** : (Citer l'importateur officiel: CAC pour VAG, Sopriam pour PSA, Auto Nejma pour Mercedes, Smeia pour BMW, etc.)\n       \n       ### 2. ⚙️ Analyse Technique (Déduction VIN)\n       - **Moteur** : [Déduction via VDS]\n       - **Année Modèle** : [Déduction via 10ème caractère]\n       - *Note : Cette analyse respecte la norme NM ISO 3779 en vigueur au Maroc.*\n       \n       ### 3. 🔍 Décodage Détaillé\n       | Section | Code | Signification |\n       | :--- | :--- | :--- |\n       | **WMI** | " ++ jsSubstring vin 0 3 ++ " | Constructeur / Pays |\n       | **VDS** | " ++ jsSubstring vin 3 9 ++ " | Caractéristiques (Châssis, Moteur) |\n       | **VIS** | " ++ jsSubstring vin 9 17 ++ " | Identification Unique / Usine |\n       \n       ### 4. ⚠️ Points de Vigilance (Spécifique Modèle)\n       - Lister 2-3 points à surveiller sur ce modèle précis (ex: distribution, boîte auto, etc.).\n       \n       Ton expert et professionnel. Pas de bla-bla générique."

/-- The request `getVinAnalysisReport` sends (free text, no schema). -/
def getVinAnalysisReportRequest (vin : String) : OracleRequest where
  model := "gemini-3-pro-preview"
  parts := [.text ("Génère le rapport d'expertise pour le VIN : " ++ vin ++ ".")]
  systemInstruction := getVinAnalysisReportSystemPrompt vin

/-- Embedding of `getVinAnalysisReport`: a long-form Markdown report.
Never throws past the key check: `response.text?.trim() || fallback`
returns the trimmed reply, or the fixed fallback string when the reply is
absent or trims to empty. -/
def getVinAnalysisReport (apiKey : Option String) (vin : String)
    (oracle : OracleRequest → Option String) : Except JSError String :=
  if apiKeyMissing apiKey then .error missingKeyError
  else
    .ok (jsOrString ((oracle (getVinAnalysisReportRequest vin)).map jsTrim)
      "Impossible de générer le rapport pour ce VIN.")

/-- Persona instruction of `chatWithExpert`. -/
def chatWithExpertSystemPrompt : String :=
  "Tu es KHABIR, un expert automobile marocain très expérimenté et serviable. \n            Réponds aux questions techniques sur les véhicules, les pannes, les procédures d'entretien, et le marché marocain. \n            Sois précis, concis et utilise un langage accessible."

/-- The chat invocation `chatWithExpert` makes. -/
def chatWithExpertRequest (history : List Content) (question : String) : ChatRequest where
  model := "gemini-3-flash-preview"
  systemInstruction := chatWithExpertSystemPrompt
  history := history
  message := question

/-- Embedding of `chatWithExpert`: one conversational turn. Returns the
trimmed reply, or the fixed apology string when the reply is absent or
trims to empty. -/
def chatWithExpert (apiKey : Option String) (history : List Content) (question : String)
    (oracle : ChatRequest → Option String) : Except JSError String :=
  if apiKeyMissing apiKey then .error missingKeyError
  else
    .ok (jsOrString ((oracle (chatWithExpertRequest history question)).map jsTrim)
      "Désolé, je n'ai pas pu traiter votre demande.")

/-- System prompt of `estimateMarketValue`, serializing the known vehicle
fields into the instruction text (`${vehicle.brand}` renders an absent
field as "undefined"; registrationYear and inventoryNotes carry `||`
fallbacks in the source). -/
def estimateMarketValueSystemPrompt (vehicle : VehicleAnalysis) : String :=
  "Tu es un expert en évaluation de véhicules d'occasion au MAROC.\n  Analyse les détails suivants et fournis une estimation de la valeur marchande en Dirhams Marocains (MAD).\n\n  DÉTAILS DU VÉHICULE :\n  - Marque: " ++ tmplOpt vehicle.brand ++ "\n  - Modèle: " ++ tmplOpt vehicle.model ++ "\n  - Année de fabrication: " ++ tmplOpt vehicle.yearOfManufacture ++ "\n  - Année de 1ère immatriculation: " ++ jsOrString vehicle.registrationYear "N/A" ++ "\n  - Motorisation: " ++ tmplOpt vehicle.motorization ++ "\n  - Carburant: " ++ tmplOpt vehicle.fuelType ++ "\n  - Notes sur l'état: " ++ jsOrString vehicle.inventoryNotes "Pas de notes spécifiques sur l'état." ++ "\n\n  TA MISSION :\n  1.  **Estimer une fourchette de prix réaliste** (min et max) pour une vente entre particuliers au Maroc.\n  2.  **Fournir une justification claire** expliquant les facteurs pris en compte (popularité du modèle, motorisation, décote, état général supposé basé sur les notes).\n\n  Réponds uniquement en JSON pur. Ne rajoute aucun commentaire en dehors du JSON."

/-- The request `estimateMarketValue` sends. -/
def estimateMarketValueRequest (vehicle : VehicleAnalysis) : OracleRequest where
  model := "gemini-3-pro-preview"
  parts := [.text "Estime la valeur de ce véhicule."]
  systemInstruction := estimateMarketValueSystemPrompt vehicle
  responseMimeType := some "application/json"
  responseSchema := some
    { properties :=
        [ { name := "marketValueMin", type := .integer, description := some "Prix minimum estimé en MAD" },
          { name := "marketValueMax", type := .integer, description := some "Prix maximum estimé en MAD" },
          { name := "marketValueJustification", type := .string, description := some "Justification détaillée de l'estimation." } ],
      required := ["marketValueMin", "marketValueMax", "marketValueJustification"] }

/-- Embedding of `estimateMarketValue`: a market-value estimate for the
known vehicle. An empty or absent reply raises
`Error("IA_ESTIMATION_FAILED")`; otherwise the trimmed text is JSON-parsed
and returned as-is. -/
def estimateMarketValue (apiKey : Option String) (vehicle : VehicleAnalysis)
    (oracle : OracleRequest → Option String) : Except JSError JSValue :=
  if apiKeyMissing apiKey then .error missingKeyError
  else
    match oracle (estimateMarketValueRequest vehicle) with
    | none => .error (.error "IA_ESTIMATION_FAILED")
    | some t =>
      if t = "" then .error (.error "IA_ESTIMATION_FAILED")
      else
        match jsonParse (jsTrim t) with
        | some v => .ok v
        | none => .error .syntaxError

/-! ## Fuel accounting for the parser -/

/-- Whether the input starts with a decimal digit (the one context where a
serialized value must not be followed directly by more input). -/
def startsWithDigit : List Char → Bool
  | [] => false
  | c :: _ => c.isDigit

mutual

/-- Fuel sufficient for `parseValue` to parse this value's serialization. -/
def fuelNeeded : JSValue → Nat
  | .arr (v :: vs) => elemsNeeded (v :: vs) + 1
  | .obj (f :: fs) => fieldsNeeded (f :: fs) + 1
  | _ => 1

/-- Fuel sufficient for `parseElems` on this element list's serialization. -/
def elemsNeeded : List JSValue → Nat
  | [] => 1
  | v :: vs => max (fuelNeeded v) (elemsNeeded vs) + 1

/-- Fuel sufficient for `parseFields` on this field list's serialization. -/
def fieldsNeeded : List (String × JSValue) → Nat
  | [] => 1
  | (_, v) :: fs => max (fuelNeeded v) (fieldsNeeded fs) + 1

end

/-! ## Basic lemmas -/

/-- Trimming the empty string gives the empty string. -/
theorem jsTrim_empty : jsTrim "" = "" := rfl

/-- Parsing the empty string fails. -/
theorem jsonParse_empty : jsonParse "" = none := rfl

/-- A string of whitespace characters trims to the empty string. -/
theorem jsTrim_eq_empty {s : String} (h : ∀ c ∈ s.data, isWS c = true) :
    jsTrim s = "" := by
  unfold jsTrim
  rw [List.dropWhile_eq_nil_iff.mpr h]
  rfl

/-! ## Round trip: numbers -/

/-- The ten digit characters are digits. -/
theorem digitChar_isDigit : ∀ d, d < 10 → (digitChar d).isDigit = true := by decide

/-- Digit characters decode to their value. -/
theorem digitChar_toNat : ∀ d, d < 10 → (digitChar d).toNat - 48 = d := by decide

/-- The digit reader stops at a non-digit. -/
theorem parseNatAux_stop (acc : Nat) (rest : List Char) (h : startsWithDigit rest = false) :
    parseNatAux acc rest = (acc, rest) := by
  cases rest with
  | nil => rfl
  | cons c cs =>
    have hc : c.isDigit = false := h
    simp [parseNatAux, hc]

/-- The digit reader consumes exactly the digits `natDigitsAux` produced,
accumulating their value. -/
theorem parseNatAux_natDigitsAux (fuel : Nat) :
    ∀ n acc rest, n ≤ fuel →
      parseNatAux acc (natDigitsAux fuel n ++ rest) =
        parseNatAux (acc * 10 ^ (natDigitsAux fuel n).length + n) rest := by
  induction fuel with
  | zero =>
    intro n acc rest hn
    have h0 : n = 0 := by omega
    subst h0
    simp [natDigitsAux]
  | succ fuel ih =>
    intro n acc rest hn
    by_cases h0 : n = 0
    · subst h0
      simp [natDigitsAux]
    · have hrec : natDigitsAux (fuel + 1) n = natDigitsAux fuel (n / 10) ++ [digitChar (n % 10)] := by
        simp [natDigitsAux, h0]
      have hle : n / 10 ≤ fuel := by omega
      rw [hrec, List.append_assoc, List.singleton_append, ih (n / 10) acc _ hle]
      have hd : (digitChar (n % 10)).isDigit = true := digitChar_isDigit _ (by omega)
      have hv : (digitChar (n % 10)).toNat - 48 = n % 10 := digitChar_toNat _ (by omega)
      simp only [parseNatAux, hd, if_true, hv]
      congr 1
      rw [List.length_append, List.length_singleton, pow_succ, ← mul_assoc]
      generalize acc * 10 ^ (natDigitsAux fuel (n / 10)).length = M
      omega

/-- The digit reader consumes exactly the decimal rendering of `n`. -/
theorem parseNatAux_natDigits (n : Nat) (acc : Nat) (rest : List Char) :
    parseNatAux acc (natDigits n ++ rest) =
      parseNatAux (acc * 10 ^ (natDigits n).length + n) rest := by
  by_cases h0 : n = 0
  · subst h0
    simp [natDigits, parseNatAux]
  · unfold natDigits
    rw [if_neg h0]
    exact parseNatAux_natDigitsAux n n acc rest le_rfl

/-- A positive number's rendering starts with a digit. -/
theorem natDigitsAux_head (fuel : Nat) :
    ∀ n, 1 ≤ n → n ≤ fuel → ∃ c cs, natDigitsAux fuel n = c :: cs ∧ c.isDigit = true := by
  induction fuel with
  | zero => intro n h1 h2; omega
  | succ fuel ih =>
    intro n h1 h2
    have h0 : ¬n = 0 := by omega
    have hrec : natDigitsAux (fuel + 1) n = natDigitsAux fuel (n / 10) ++ [digitChar (n % 10)] := by
      simp [natDigitsAux, h0]
    rw [hrec]
    by_cases hq : n / 10 = 0
    · have hz : natDigitsAux fuel (n / 10) = [] := by
        rw [hq]; cases fuel <;> simp [natDigitsAux]
      rw [hz]
      exact ⟨digitChar (n % 10), [], rfl, digitChar_isDigit _ (by omega)⟩
    · obtain ⟨c, cs, hcs, hc⟩ := ih (n / 10) (by omega) (by omega)
      exact ⟨c, cs ++ [digitChar (n % 10)], by rw [hcs]; rfl, hc⟩

/-- A natural number's rendering starts with a digit. -/
theorem natDigits_head (n : Nat) : ∃ c cs, natDigits n = c :: cs ∧ c.isDigit = true := by
  by_cases h0 : n = 0
  · subst h0
    exact ⟨'0', [], rfl, by decide⟩
  · unfold natDigits
    rw [if_neg h0]
    exact natDigitsAux_head n n (by omega) le_rfl

/-- The number parser inverts the integer serialization (when what follows
does not begin with a digit). -/
theorem parseNumber_intChars (n : Int) (rest : List Char) (h : startsWithDigit rest = false) :
    parseNumber (intChars n ++ rest) = some (n, rest) := by
  cases n with
  | ofNat m =>
    have hneg : ¬(Int.ofNat m < 0) := Int.not_lt.mpr (Int.ofNat_nonneg m)
    unfold intChars
    rw [if_neg hneg]
    obtain ⟨c, cs, hcs, hc⟩ := natDigits_head (Int.ofNat m).toNat
    rw [hcs, List.cons_append]
    have hcm : ¬c = '-' := by
      intro he
      subst he
      exact absurd hc (by decide)
    simp only [parseNumber, if_neg hcm, if_pos hc]
    rw [← List.cons_append, ← hcs, parseNatAux_natDigits, parseNatAux_stop _ _ h]
    simp
  | negSucc m =>
    have hneg : Int.negSucc m < 0 := Int.negSucc_lt_zero m
    unfold intChars
    rw [if_pos hneg]
    have habs : (Int.negSucc m).natAbs = m + 1 := rfl
    rw [habs, List.cons_append]
    obtain ⟨c, cs, hcs, hc⟩ := natDigits_head (m + 1)
    rw [hcs, List.cons_append]
    simp only [parseNumber, if_pos rfl, hc, if_pos hc]
    rw [← List.cons_append, ← hcs, parseNatAux_natDigits, parseNatAux_stop _ _ h]
    simp [Int.negSucc_eq]

/-! ## Round trip: string literals -/

/-- The sixteen hex digit characters decode to their value. -/
theorem hexVal_hexChar : ∀ d, d < 16 → hexVal (hexChar d) = some d := by decide

/-- Reading back a packed valid scalar value below the surrogate range. -/
theorem charToNat_ofNat {m : Nat} (h : m < 55296) : (Char.ofNat m).toNat = m := by
  rw [Char.ofNat, dif_pos (Or.inl h)]
  simp [Char.ofNatAux, Char.toNat, UInt32.toNat]

/-- One step of the string-body parser: the closing quote. -/
theorem parseStringRest_quote (rest : List Char) :
    parseStringRest ('"' :: rest) = some ([], rest) := by
  rw [parseStringRest.eq_def]
  simp

/-- One step of the string-body parser: a short escape. -/
theorem parseStringRest_short {e d : Char} (he : ¬e = 'u') (hd : shortEscape e = some d)
    {T content rest : List Char} (h : parseStringRest T = some (content, rest)) :
    parseStringRest ('\\' :: e :: T) = some (d :: content, rest) := by
  rw [parseStringRest.eq_def]
  simp [he, hd, h]

/-- One step of the string-body parser: an unescaped character. -/
theorem parseStringRest_raw {c : Char} (h1 : ¬c = '"') (h2 : ¬c = '\\')
    {T content rest : List Char} (h : parseStringRest T = some (content, rest)) :
    parseStringRest (c :: T) = some (c :: content, rest) := by
  rw [parseStringRest.eq_def]
  simp [h1, h2, h]

/-- One step of the string-body parser: a `\uXXXX` escape. -/
theorem parseStringRest_hex {h1 h2 h3 h4 : Char} {a b c3 d : Nat}
    (e1 : hexVal h1 = some a) (e2 : hexVal h2 = some b)
    (e3 : hexVal h3 = some c3) (e4 : hexVal h4 = some d)
    {T content rest : List Char} (h : parseStringRest T = some (content, rest)) :
    parseStringRest ('\\' :: 'u' :: h1 :: h2 :: h3 :: h4 :: T) =
      some (Char.ofNat (((a * 16 + b) * 16 + c3) * 16 + d) :: content, rest) := by
  simp [parseStringRest, e1, e2, e3, e4, h]

/-- For a character below codepoint 32 outside the short escapes,
`escapeChar` produces the `\u00xx` escape. -/
theorem escapeChar_hex {c : Char} (h1 : ¬c = '"') (h2 : ¬c = '\\') (h3 : ¬c = '\x08')
    (h4 : ¬c = '\x09') (h5 : ¬c = '\x0a') (h6 : ¬c = '\x0c') (h7 : ¬c = '\x0d')
    (h8 : c.toNat < 32) :
    escapeChar c = ['\\', 'u', '0', '0', hexChar (c.toNat / 16), hexChar (c.toNat % 16)] := by
  unfold escapeChar
  rw [if_neg h1, if_neg h2, if_neg h3, if_neg h4, if_neg h5, if_neg h6, if_neg h7, if_pos h8]

/-- An ordinary character escapes to itself. -/
theorem escapeChar_plain {c : Char} (h1 : ¬c = '"') (h2 : ¬c = '\\') (h3 : ¬c = '\x08')
    (h4 : ¬c = '\x09') (h5 : ¬c = '\x0a') (h6 : ¬c = '\x0c') (h7 : ¬c = '\x0d')
    (h8 : ¬c.toNat < 32) :
    escapeChar c = [c] := by
  unfold escapeChar
  rw [if_neg h1, if_neg h2, if_neg h3, if_neg h4, if_neg h5, if_neg h6, if_neg h7, if_neg h8]

/-- Classification of `escapeChar`'s output: a decodable short escape, the
hex escape of a control character, or the character itself. -/
theorem escapeChar_cases (c : Char) :
    (∃ e, escapeChar c = ['\\', e] ∧ ¬e = 'u' ∧ shortEscape e = some c) ∨
    (escapeChar c = ['\\', 'u', '0', '0', hexChar (c.toNat / 16), hexChar (c.toNat % 16)] ∧
      c.toNat < 32) ∨
    (escapeChar c = [c] ∧ ¬c = '"' ∧ ¬c = '\\') := by
  by_cases h1 : c = '"'
  · subst h1; exact Or.inl ⟨'"', rfl, by decide, rfl⟩
  by_cases h2 : c = '\\'
  · subst h2; exact Or.inl ⟨'\\', rfl, by decide, rfl⟩
  by_cases h3 : c = '\x08'
  · subst h3; exact Or.inl ⟨'b', rfl, by decide, rfl⟩
  by_cases h4 : c = '\x09'
  · subst h4; exact Or.inl ⟨'t', rfl, by decide, rfl⟩
  by_cases h5 : c = '\x0a'
  · subst h5; exact Or.inl ⟨'n', rfl, by decide, rfl⟩
  by_cases h6 : c = '\x0c'
  · subst h6; exact Or.inl ⟨'f', rfl, by decide, rfl⟩
  by_cases h7 : c = '\x0d'
  · subst h7; exact Or.inl ⟨'r', rfl, by decide, rfl⟩
  by_cases h8 : c.toNat < 32
  · exact Or.inr (Or.inl ⟨escapeChar_hex h1 h2 h3 h4 h5 h6 h7 h8, h8⟩)
  · exact Or.inr (Or.inr ⟨escapeChar_plain h1 h2 h3 h4 h5 h6 h7 h8, h1, h2⟩)

/-- The first of the three branches above also needs the escape to map to a
`['\\', e]` shape; with it, the string-body parser inverts
`JSON.stringify`'s escaping. -/
theorem parseStringRest_escape (s : List Char) :
    ∀ rest : List Char,
      parseStringRest ((s.map escapeChar).flatten ++ '"' :: rest) = some (s, rest) := by
  induction s with
  | nil =>
    intro rest
    simp only [List.map_nil, List.flatten_nil, List.nil_append]
    exact parseStringRest_quote rest
  | cons c cs ih =>
    intro rest
    rw [List.map_cons, List.flatten_cons, List.append_assoc]
    rcases escapeChar_cases c with ⟨e, hesc, hu, hd⟩ | ⟨hesc, hlt⟩ | ⟨hesc, hq, hb⟩ <;> rw [hesc]
    · simp only [List.cons_append, List.nil_append]
      exact parseStringRest_short hu hd (ih rest)
    · simp only [List.cons_append, List.nil_append]
      rw [parseStringRest_hex (show hexVal '0' = some 0 from rfl)
        (show hexVal '0' = some 0 from rfl) (hexVal_hexChar (c.toNat / 16) (by omega))
        (hexVal_hexChar (c.toNat % 16) (by omega)) (ih rest)]
      have hv : ((0 * 16 + 0) * 16 + c.toNat / 16) * 16 + c.toNat % 16 = c.toNat := by omega
      rw [hv, Char.ofNat_toNat]
    · simp only [List.cons_append, List.nil_append]
      exact parseStringRest_raw hq hb (ih rest)

/-! ## Round trip: values -/

/-- A digit character is not whitespace. -/
theorem not_ws_of_digit {c : Char} (h : c.isDigit = true) : isWS c = false := by
  cases hw : isWS c
  · rfl
  · exfalso
    have hd : ((c = ' ' ∨ c = '\t') ∨ c = '\n') ∨ c = '\r' := by
      simpa [isWS] using hw
    rcases hd with ((rfl | rfl) | rfl) | rfl <;> exact absurd h (by decide)

/-- A digit character differs from any non-digit character. -/
theorem digit_ne_of {c : Char} (h : c.isDigit = true) (d : Char) (hd : d.isDigit = false) :
    ¬c = d := by
  intro he
  subst he
  rw [h] at hd
  cases hd

/-- A serialized number's head (minus sign or digit) is none of the
keyword/string/bracket heads the value parser dispatches on. -/
theorem numHead_ne {c : Char} (hc : c = '-' ∨ c.isDigit = true) :
    ¬c = 'n' ∧ ¬c = 't' ∧ ¬c = 'f' ∧ ¬c = '"' ∧ ¬c = '[' ∧ ¬c = '{' ∧ isWS c = false := by
  rcases hc with rfl | hd
  · exact ⟨by decide, by decide, by decide, by decide, by decide, by decide, by decide⟩
  · exact ⟨digit_ne_of hd 'n' (by decide), digit_ne_of hd 't' (by decide),
      digit_ne_of hd 'f' (by decide), digit_ne_of hd '"' (by decide),
      digit_ne_of hd '[' (by decide), digit_ne_of hd '{' (by decide), not_ws_of_digit hd⟩

/-- A serialized integer starts with a minus sign or a digit. -/
theorem intChars_head (n : Int) :
    ∃ c cs, intChars n = c :: cs ∧ (c = '-' ∨ c.isDigit = true) := by
  unfold intChars
  by_cases hn : n < 0
  · rw [if_pos hn]
    exact ⟨'-', _, rfl, Or.inl rfl⟩
  · rw [if_neg hn]
    obtain ⟨c, cs, hcs, hc⟩ := natDigits_head n.toNat
    exact ⟨c, cs, hcs, Or.inr hc⟩

/-- Skipping whitespace is the identity on input with a non-blank head. -/
theorem skipWS_cons {c : Char} (cs : List Char) (h : isWS c = false) :
    skipWS (c :: cs) = c :: cs := by
  simp [skipWS, List.dropWhile_cons, h]

/-- Every serialized value starts with a character that is not whitespace
and not a closing delimiter. -/
theorem stringifyChars_head (v : JSValue) :
    ∃ c cs, stringifyChars v = c :: cs ∧ isWS c = false ∧ ¬c = ']' ∧ ¬c = '}' := by
  cases v with
  | null => exact ⟨'n', _, rfl, by decide, by decide, by decide⟩
  | bool b => cases b with
    | false => exact ⟨'f', _, rfl, by decide, by decide, by decide⟩
    | true => exact ⟨'t', _, rfl, by decide, by decide, by decide⟩
  | num n =>
    obtain ⟨c, cs, hcs, hc⟩ := intChars_head n
    refine ⟨c, cs, hcs, (numHead_ne hc).2.2.2.2.2.2, ?_, ?_⟩
    · rcases hc with rfl | hd
      · decide
      · exact digit_ne_of hd ']' (by decide)
    · rcases hc with rfl | hd
      · decide
      · exact digit_ne_of hd '}' (by decide)
  | str s => exact ⟨'"', _, rfl, by decide, by decide, by decide⟩
  | arr vs => exact ⟨'[', _, rfl, by decide, by decide, by decide⟩
  | obj fs => exact ⟨'{', _, rfl, by decide, by decide, by decide⟩

/-- Fuel bounds are positive. -/
theorem one_le_fuelNeeded (v : JSValue) : 1 ≤ fuelNeeded v := by
  cases v with
  | arr vs => cases vs <;> simp [fuelNeeded]
  | obj fs => cases fs <;> simp [fuelNeeded]
  | _ => simp [fuelNeeded]

/-- Element-list fuel bounds are positive. -/
theorem one_le_elemsNeeded (vs : List JSValue) : 1 ≤ elemsNeeded vs := by
  cases vs <;> simp [elemsNeeded]

/-- Field-list fuel bounds are positive. -/
theorem one_le_fieldsNeeded (fs : List (String × JSValue)) : 1 ≤ fieldsNeeded fs := by
  cases fs with
  | nil => simp [fieldsNeeded]
  | cons f fs => rcases f with ⟨k, v⟩; simp [fieldsNeeded]

/-- Value-parser dispatch on a number head. -/
theorem parseValue_numHead {fuel : Nat} {c : Char} {cs : List Char}
    (hc : c = '-' ∨ c.isDigit = true) :
    parseValue (fuel + 1) (c :: cs) =
      (match parseNumber (c :: cs) with
        | some (n, rest1) => some (.num n, rest1)
        | none => none) := by
  obtain ⟨hn, ht, hf, hq, hb, hbr, hws⟩ := numHead_ne hc
  rw [parseValue.eq_def]
  simp only []
  rw [skipWS_cons _ hws]
  simp [hn, ht, hf, hq, hb, hbr]

/-- Value-parser dispatch on a string head. -/
theorem parseValue_quoteHead (fuel : Nat) (cs : List Char) :
    parseValue (fuel + 1) ('"' :: cs) =
      (match parseStringRest cs with
        | some (content, rest1) => some (.str (String.mk content), rest1)
        | none => none) := rfl

/-- Value-parser dispatch into a non-empty array body. -/
theorem parseValue_arrHead {fuel : Nat} {c : Char} {cs0 : List Char}
    (hws : isWS c = false) (hbr : ¬c = ']') :
    parseValue (fuel + 1) ('[' :: c :: cs0) =
      (match parseElems fuel (c :: cs0) with
        | some (vs, rest1) => some (.arr vs, rest1)
        | none => none) := by
  have h0 : parseValue (fuel + 1) ('[' :: c :: cs0) =
      (match skipWS (c :: cs0) with
        | ']' :: rest1 => some (.arr [], rest1)
        | _ =>
          match parseElems fuel (c :: cs0) with
          | some (vs, rest1) => some (.arr vs, rest1)
          | none => none) := rfl
  rw [h0, skipWS_cons _ hws]
  simp [hbr]

/-- Value-parser dispatch into a non-empty object body. -/
theorem parseValue_objHead {fuel : Nat} {c : Char} {cs0 : List Char}
    (hws : isWS c = false) (hbr : ¬c = '}') :
    parseValue (fuel + 1) ('{' :: c :: cs0) =
      (match parseFields fuel (c :: cs0) with
        | some (fs, rest1) => some (.obj fs, rest1)
        | none => none) := by
  have h0 : parseValue (fuel + 1) ('{' :: c :: cs0) =
      (match skipWS (c :: cs0) with
        | '}' :: rest1 => some (.obj [], rest1)
        | _ =>
          match parseFields fuel (c :: cs0) with
          | some (fs, rest1) => some (.obj fs, rest1)
          | none => none) := rfl
  rw [h0, skipWS_cons _ hws]
  simp [hbr]

/-- One step of the element parser. -/
theorem parseElems_step (fuel : Nat) (cs : List Char) :
    parseElems (fuel + 1) cs =
      (match parseValue fuel cs with
      | none => none
      | some (v, r) =>
        match skipWS r with
        | ',' :: rest1 =>
          (match parseElems fuel rest1 with
            | some (vs, rest2) => some (v :: vs, rest2)
            | none => none)
        | ']' :: rest1 => some ([v], rest1)
        | _ => none) := rfl

/-- One step of the member parser, on a quote head. -/
theorem parseFields_step (fuel : Nat) (cs : List Char) :
    parseFields (fuel + 1) ('"' :: cs) =
      (match parseStringRest cs with
      | none => none
      | some (key, rest1) =>
        match skipWS rest1 with
        | ':' :: rest2 =>
          (match parseValue fuel rest2 with
          | none => none
          | some (v, rest3) =>
            match skipWS rest3 with
            | ',' :: rest4 =>
              (match parseFields fuel rest4 with
                | some (fs, rest5) => some ((String.mk key, v) :: fs, rest5)
                | none => none)
            | '}' :: rest4 => some ([(String.mk key, v)], rest4)
            | _ => none)
        | _ => none) := rfl

/-- A non-empty serialized element list starts like its first value. -/
theorem stringifyElems_head (v : JSValue) (vs : List JSValue) :
    ∃ c cs, stringifyElems (v :: vs) = c :: cs ∧ isWS c = false ∧ ¬c = ']' ∧ ¬c = '}' := by
  obtain ⟨c, cs, hcs, h1, h2, h3⟩ := stringifyChars_head v
  cases vs with
  | nil =>
    exact ⟨c, cs, by rw [show stringifyElems [v] = stringifyChars v from rfl, hcs], h1, h2, h3⟩
  | cons w ws =>
    refine ⟨c, cs ++ ',' :: stringifyElems (w :: ws), ?_, h1, h2, h3⟩
    rw [show stringifyElems (v :: w :: ws) = stringifyChars v ++ ',' :: stringifyElems (w :: ws)
      from rfl, hcs, List.cons_append]

/-- A non-empty serialized field list starts with a quote. -/
theorem stringifyFields_head (k : String) (v : JSValue) (fs : List (String × JSValue)) :
    ∃ cs, stringifyFields ((k, v) :: fs) = '"' :: cs := by
  cases fs with
  | nil =>
    exact ⟨(k.data.map escapeChar).flatten ++ ['"'] ++ ':' :: stringifyChars v, by
      rw [show stringifyFields [(k, v)] = quoteString k ++ ':' :: stringifyChars v from rfl]
      rw [show quoteString k = '"' :: ((k.data.map escapeChar).flatten ++ ['"']) from rfl]
      simp [List.append_assoc]⟩
  | cons g gs =>
    exact ⟨(k.data.map escapeChar).flatten ++ ['"'] ++
        ':' :: (stringifyChars v ++ ',' :: stringifyFields (g :: gs)), by
      rw [show stringifyFields ((k, v) :: g :: gs) =
        quoteString k ++ ':' :: (stringifyChars v ++ ',' :: stringifyFields (g :: gs)) from by
          simp [stringifyFields]]
      rw [show quoteString k = '"' :: ((k.data.map escapeChar).flatten ++ ['"']) from rfl]
      simp [List.append_assoc]⟩

/-- The parser inverts the serializer, given enough fuel: one statement for
values, element lists and member lists, by induction on fuel. -/
theorem parse_stringify (fuel : Nat) :
    (∀ v rest, fuelNeeded v ≤ fuel → startsWithDigit rest = false →
      parseValue fuel (stringifyChars v ++ rest) = some (v, rest)) ∧
    (∀ vs rest, ¬vs = [] → elemsNeeded vs ≤ fuel → startsWithDigit rest = false →
      parseElems fuel (stringifyElems vs ++ ']' :: rest) = some (vs, rest)) ∧
    (∀ fs rest, ¬fs = [] → fieldsNeeded fs ≤ fuel → startsWithDigit rest = false →
      parseFields fuel (stringifyFields fs ++ '}' :: rest) = some (fs, rest)) := by
  induction fuel with
  | zero =>
    refine ⟨fun v rest hf _ => absurd hf ?_, fun vs rest _ hf _ => absurd hf ?_,
      fun fs rest _ hf _ => absurd hf ?_⟩
    · have := one_le_fuelNeeded v
      omega
    · have := one_le_elemsNeeded vs
      omega
    · have := one_le_fieldsNeeded fs
      omega
  | succ fuel ih =>
    obtain ⟨ihP, ihQ, ihR⟩ := ih
    refine ⟨?_, ?_, ?_⟩
    · intro v rest hf hrest
      cases v with
      | null => rfl
      | bool b => cases b <;> rfl
      | num n =>
        obtain ⟨c, cs, hcs, hc⟩ := intChars_head n
        have h1 : stringifyChars (.num n) ++ rest = c :: (cs ++ rest) := by
          rw [show stringifyChars (.num n) = intChars n from rfl, hcs, List.cons_append]
        rw [h1, parseValue_numHead hc, ← List.cons_append, ← hcs,
          parseNumber_intChars n rest hrest]
      | str s =>
        have h1 : stringifyChars (.str s) ++ rest =
            '"' :: ((s.data.map escapeChar).flatten ++ '"' :: rest) := by
          rw [show stringifyChars (.str s) =
            '"' :: ((s.data.map escapeChar).flatten ++ ['"']) from rfl]
          simp [List.append_assoc]
        rw [h1, parseValue_quoteHead, parseStringRest_escape]
      | arr vs =>
        cases vs with
        | nil => rfl
        | cons v vs' =>
          obtain ⟨c, cs0, hel, hws, hbr, _⟩ := stringifyElems_head v vs'
          have hfe : elemsNeeded (v :: vs') ≤ fuel := by
            have he : fuelNeeded (.arr (v :: vs')) = elemsNeeded (v :: vs') + 1 := by
              simp [fuelNeeded]
            omega
          have h1 : stringifyChars (.arr (v :: vs')) ++ rest =
              '[' :: (c :: (cs0 ++ ']' :: rest)) := by
            rw [show stringifyChars (.arr (v :: vs')) =
              '[' :: (stringifyElems (v :: vs') ++ [']']) from rfl, hel]
            simp [List.append_assoc]
          have hQ := ihQ (v :: vs') rest (by simp) hfe hrest
          rw [hel, List.cons_append] at hQ
          rw [h1, parseValue_arrHead hws hbr, hQ]
      | obj fs =>
        cases fs with
        | nil => rfl
        | cons f fs' =>
          rcases f with ⟨k, v⟩
          obtain ⟨cs0, hfl⟩ := stringifyFields_head k v fs'
          have hff : fieldsNeeded ((k, v) :: fs') ≤ fuel := by
            have he : fuelNeeded (.obj ((k, v) :: fs')) = fieldsNeeded ((k, v) :: fs') + 1 := by
              simp [fuelNeeded]
            omega
          have h1 : stringifyChars (.obj ((k, v) :: fs')) ++ rest =
              '{' :: ('"' :: (cs0 ++ '}' :: rest)) := by
            rw [show stringifyChars (.obj ((k, v) :: fs')) =
              '{' :: (stringifyFields ((k, v) :: fs') ++ ['}']) from rfl, hfl]
            simp [List.append_assoc]
          have hR := ihR ((k, v) :: fs') rest (by simp) hff hrest
          rw [hfl, List.cons_append] at hR
          rw [h1, parseValue_objHead (by decide) (by decide), hR]
    · intro vs rest hne hf hrest
      cases vs with
      | nil => exact absurd rfl hne
      | cons v vs' =>
        cases vs' with
        | nil =>
          have hfv : fuelNeeded v ≤ fuel := by
            have he : elemsNeeded [v] = max (fuelNeeded v) (elemsNeeded []) + 1 := by
              simp [elemsNeeded]
            have he0 : elemsNeeded ([] : List JSValue) = 1 := by simp [elemsNeeded]
            omega
          have hP := ihP v (']' :: rest) hfv rfl
          rw [show stringifyElems [v] = stringifyChars v from rfl, parseElems_step, hP]
          rfl
        | cons w ws =>
          have heq : elemsNeeded (v :: w :: ws) =
              max (fuelNeeded v) (elemsNeeded (w :: ws)) + 1 := by
            simp [elemsNeeded]
          have hfv : fuelNeeded v ≤ fuel := by omega
          have hfw : elemsNeeded (w :: ws) ≤ fuel := by omega
          have hP := ihP v (',' :: (stringifyElems (w :: ws) ++ ']' :: rest)) hfv rfl
          have hQ := ihQ (w :: ws) rest (by simp) hfw hrest
          rw [show stringifyElems (v :: w :: ws) =
            stringifyChars v ++ ',' :: stringifyElems (w :: ws) from rfl]
          rw [List.append_assoc, List.cons_append, parseElems_step, hP]
          have hskip : skipWS (',' :: (stringifyElems (w :: ws) ++ ']' :: rest)) =
              ',' :: (stringifyElems (w :: ws) ++ ']' :: rest) := skipWS_cons _ (by decide)
          simp only [hskip, hQ]
    · intro fs rest hne hf hrest
      cases fs with
      | nil => exact absurd rfl hne
      | cons f fs' =>
        rcases f with ⟨k, v⟩
        have hkey : ∀ T, parseFields (fuel + 1) (quoteString k ++ T) =
            (match parseStringRest ((k.data.map escapeChar).flatten ++ '"' :: T) with
            | none => none
            | some (key, rest1) =>
              match skipWS rest1 with
              | ':' :: rest2 =>
                (match parseValue fuel rest2 with
                | none => none
                | some (w, rest3) =>
                  match skipWS rest3 with
                  | ',' :: rest4 =>
                    (match parseFields fuel rest4 with
                      | some (gs, rest5) => some ((String.mk key, w) :: gs, rest5)
                      | none => none)
                  | '}' :: rest4 => some ([(String.mk key, w)], rest4)
                  | _ => none)
              | _ => none) := by
          intro T
          rw [show quoteString k ++ T =
            '"' :: ((k.data.map escapeChar).flatten ++ '"' :: T) from by
              rw [show quoteString k = '"' :: ((k.data.map escapeChar).flatten ++ ['"']) from rfl]
              simp [List.append_assoc]]
          exact parseFields_step fuel _
        cases fs' with
        | nil =>
          have hfv : fuelNeeded v ≤ fuel := by
            have he : fieldsNeeded [(k, v)] = max (fuelNeeded v) (fieldsNeeded []) + 1 := by
              simp [fieldsNeeded]
            have he0 : fieldsNeeded ([] : List (String × JSValue)) = 1 := by
              simp [fieldsNeeded]
            omega
          have hP := ihP v ('}' :: rest) hfv rfl
          rw [show stringifyFields [(k, v)] = quoteString k ++ ':' :: stringifyChars v from rfl]
          rw [List.append_assoc, List.cons_append, hkey, parseStringRest_escape]
          have hskip : skipWS (':' :: (stringifyChars v ++ '}' :: rest)) =
              ':' :: (stringifyChars v ++ '}' :: rest) := skipWS_cons _ (by decide)
          simp only [hskip, hP]
          rfl
        | cons g gs =>
          have heq : fieldsNeeded ((k, v) :: g :: gs) =
              max (fuelNeeded v) (fieldsNeeded (g :: gs)) + 1 := by
            simp [fieldsNeeded]
          have hfv : fuelNeeded v ≤ fuel := by omega
          have hfg : fieldsNeeded (g :: gs) ≤ fuel := by omega
          have hP := ihP v (',' :: (stringifyFields (g :: gs) ++ '}' :: rest)) hfv rfl
          have hR := ihR (g :: gs) rest (by simp) hfg hrest
          rw [show stringifyFields ((k, v) :: g :: gs) =
            quoteString k ++ ':' :: (stringifyChars v ++ ',' :: stringifyFields (g :: gs))
            from by simp [stringifyFields]]
          rw [List.append_assoc, List.cons_append, List.append_assoc, List.cons_append,
            hkey, parseStringRest_escape]
          have hskip : skipWS (':' :: (stringifyChars v ++
              (',' :: (stringifyFields (g :: gs) ++ '}' :: rest)))) =
              ':' :: (stringifyChars v ++ (',' :: (stringifyFields (g :: gs) ++ '}' :: rest))) :=
            skipWS_cons _ (by decide)
          simp only [hskip, hP]
          have hskip2 : skipWS (',' :: (stringifyFields (g :: gs) ++ '}' :: rest)) =
              ',' :: (stringifyFields (g :: gs) ++ '}' :: rest) := skipWS_cons _ (by decide)
          simp only [hskip2, hR]

/-- Serialized values are non-empty. -/
theorem one_le_length_stringifyChars (v : JSValue) : 1 ≤ (stringifyChars v).length := by
  obtain ⟨c, cs, hcs, _⟩ := stringifyChars_head v
  rw [hcs]
  simp

/-- The fuel a value needs is bounded by its serialization's length (so the
input-length fuel `jsonParse` uses is always enough). -/
theorem fuelNeeded_le_length : ∀ n : Nat,
    (∀ v : JSValue, sizeOf v ≤ n → fuelNeeded v ≤ (stringifyChars v).length) ∧
    (∀ vs : List JSValue, sizeOf vs ≤ n → elemsNeeded vs ≤ (stringifyElems vs).length + 1) ∧
    (∀ fs : List (String × JSValue), sizeOf fs ≤ n →
      fieldsNeeded fs ≤ (stringifyFields fs).length + 1) := by
  intro n
  induction n using Nat.strong_induction_on with
  | _ n ih =>
    refine ⟨?_, ?_, ?_⟩
    · intro v hv
      cases v with
      | null => decide
      | bool b => cases b <;> decide
      | num m =>
        obtain ⟨c, cs, hcs, _⟩ := intChars_head m
        rw [show stringifyChars (.num m) = intChars m from rfl, hcs]
        simp [fuelNeeded]
      | str s =>
        rw [show stringifyChars (.str s) = quoteString s from rfl,
          show quoteString s = '"' :: ((s.data.map escapeChar).flatten ++ ['"']) from rfl]
        simp [fuelNeeded]
      | arr vs =>
        cases vs with
        | nil => decide
        | cons v vs' =>
          have hspec : sizeOf (JSValue.arr (v :: vs')) = 1 + sizeOf (v :: vs') := by simp
          have hn1 : 1 ≤ n := by omega
          have he := (ih (n - 1) (by omega)).2.1 (v :: vs') (by omega)
          rw [show stringifyChars (.arr (v :: vs')) =
            '[' :: (stringifyElems (v :: vs') ++ [']']) from rfl]
          have hf : fuelNeeded (.arr (v :: vs')) = elemsNeeded (v :: vs') + 1 := by
            simp [fuelNeeded]
          rw [hf]
          simp only [List.length_cons, List.length_append, List.length_singleton]
          omega
      | obj fs =>
        cases fs with
        | nil => decide
        | cons f fs' =>
          have hspec : sizeOf (JSValue.obj (f :: fs')) = 1 + sizeOf (f :: fs') := by simp
          have hn1 : 1 ≤ n := by omega
          have he := (ih (n - 1) (by omega)).2.2 (f :: fs') (by omega)
          rcases f with ⟨k, v⟩
          rw [show stringifyChars (.obj ((k, v) :: fs')) =
            '{' :: (stringifyFields ((k, v) :: fs') ++ ['}']) from rfl]
          have hf : fuelNeeded (.obj ((k, v) :: fs')) = fieldsNeeded ((k, v) :: fs') + 1 := by
            simp [fuelNeeded]
          rw [hf]
          simp only [List.length_cons, List.length_append, List.length_singleton]
          omega
    · intro vs hv
      cases vs with
      | nil => decide
      | cons v vs' =>
        have hspec : sizeOf (v :: vs') = 1 + sizeOf v + sizeOf vs' := by simp
        have hn1 : 1 ≤ n := by omega
        have hev := (ih (n - 1) (by omega)).1 v (by omega)
        have hlen := one_le_length_stringifyChars v
        have heq : elemsNeeded (v :: vs') = max (fuelNeeded v) (elemsNeeded vs') + 1 := by
          simp [elemsNeeded]
        cases vs' with
        | nil =>
          rw [heq, show stringifyElems [v] = stringifyChars v from rfl]
          have h0 : elemsNeeded ([] : List JSValue) = 1 := by simp [elemsNeeded]
          omega
        | cons w ws =>
          have hew := (ih (n - 1) (by omega)).2.1 (w :: ws) (by
            have : sizeOf (w :: ws) = 1 + sizeOf w + sizeOf ws := by simp
            omega)
          rw [heq, show stringifyElems (v :: w :: ws) =
            stringifyChars v ++ ',' :: stringifyElems (w :: ws) from rfl]
          simp only [List.length_append, List.length_cons]
          omega
    · intro fs hv
      cases fs with
      | nil => decide
      | cons f fs' =>
        rcases f with ⟨k, v⟩
        have hspec : sizeOf ((k, v) :: fs') = 1 + (1 + sizeOf k + sizeOf v) + sizeOf fs' := by
          simp
        have hn1 : 1 ≤ n := by omega
        have hev := (ih (n - 1) (by omega)).1 v (by omega)
        have hlen := one_le_length_stringifyChars v
        have heq : fieldsNeeded ((k, v) :: fs') = max (fuelNeeded v) (fieldsNeeded fs') + 1 := by
          simp [fieldsNeeded]
        cases fs' with
        | nil =>
          rw [heq, show stringifyFields [(k, v)] =
            quoteString k ++ ':' :: stringifyChars v from rfl]
          have h0 : fieldsNeeded ([] : List (String × JSValue)) = 1 := by simp [fieldsNeeded]
          simp only [List.length_append, List.length_cons]
          omega
        | cons g gs =>
          have heg := (ih (n - 1) (by omega)).2.2 (g :: gs) (by
            have : sizeOf (g :: gs) = 1 + sizeOf g + sizeOf gs := by simp
            omega)
          rw [heq, show stringifyFields ((k, v) :: g :: gs) =
            quoteString k ++ ':' :: (stringifyChars v ++ ',' :: stringifyFields (g :: gs))
            from by simp [stringifyFields]]
          simp only [List.length_append, List.length_cons]
          omega

/-- `JSON.parse` inverts `JSON.stringify` on every modelled value. -/
theorem jsonParse_jsonStringify (v : JSValue) : jsonParse (jsonStringify v) = some v := by
  unfold jsonParse jsonStringify
  have hfe : fuelNeeded v ≤ (stringifyChars v).length :=
    (fuelNeeded_le_length (sizeOf v)).1 v le_rfl
  have h := (parse_stringify ((stringifyChars v).length + 1)).1 v [] (by omega) rfl
  rw [List.append_nil] at h
  rw [show (String.mk (stringifyChars v)).data = stringifyChars v from rfl, h]
  rfl

/-- A serialized object is already trimmed: it starts with `{` and ends
with `}`. -/
theorem jsTrim_jsonStringify_obj (fs : List (String × JSValue)) :
    jsTrim (jsonStringify (.obj fs)) = jsonStringify (.obj fs) := by
  unfold jsTrim jsonStringify
  rw [show stringifyChars (.obj fs) = '{' :: (stringifyFields fs ++ ['}']) from rfl]
  have h1 : isWS '{' = false := rfl
  have h2 : isWS '}' = false := rfl
  rw [show (String.mk ('{' :: (stringifyFields fs ++ ['}']))).data =
    '{' :: (stringifyFields fs ++ ['}']) from rfl]
  rw [List.dropWhile_cons_of_neg (by simp [h1]), List.reverse_cons, List.reverse_append]
  simp only [List.reverse_singleton, List.singleton_append, List.cons_append,
    List.dropWhile_cons_of_neg (show ¬isWS '}' = true by simp [h2])]
  simp

/-- A serialized object is a non-empty string. -/
theorem jsonStringify_obj_ne_empty (fs : List (String × JSValue)) :
    jsonStringify (.obj fs) ≠ "" := by
  unfold jsonStringify
  rw [show stringifyChars (.obj fs) = '{' :: (stringifyFields fs ++ ['}']) from rfl]
  intro h
  have hd := congrArg String.data h
  simp at hd

/-! ## The claims -/

/-- C1 — For every oracle reply whose text is empty or absent:
`analyzeVehicleByVin` and `analyzeVehicleDetails` return the empty partial
`{}`; `analyzeVehicleCritical` raises `Error("IA_EMPTY_RESPONSE")` and
`estimateMarketValue` raises `Error("IA_ESTIMATION_FAILED")` — two
distinctly named signals; `getVinAnalysisReport` and `chatWithExpert`
return their fixed fallback strings. -/
theorem emptyReplyPolicy (apiKey : Option String) (hkey : apiKeyMissing apiKey = false)
    (r : Option String) (hr : r = none ∨ r = some "")
    (vin img brand question : String) (mode : ScanType)
    (history : List Content) (vehicle : VehicleAnalysis) :
    analyzeVehicleByVin apiKey vin (fun _ => r) = .ok (.obj []) ∧
    analyzeVehicleDetails apiKey img brand (fun _ => r) = .ok (.obj []) ∧
    analyzeVehicleCritical apiKey img mode (fun _ => r) = .error (.error "IA_EMPTY_RESPONSE") ∧
    estimateMarketValue apiKey vehicle (fun _ => r) = .error (.error "IA_ESTIMATION_FAILED") ∧
    JSError.error "IA_EMPTY_RESPONSE" ≠ JSError.error "IA_ESTIMATION_FAILED" ∧
    getVinAnalysisReport apiKey vin (fun _ => r) = .ok "Impossible de générer le rapport pour ce VIN." ∧
    chatWithExpert apiKey history question (fun _ => r) = .ok "Désolé, je n'ai pas pu traiter votre demande." := by
  rcases hr with rfl | rfl <;>
    refine ⟨?_, ?_, ?_, ?_, by decide, ?_, ?_⟩ <;>
    simp [analyzeVehicleByVin, analyzeVehicleDetails, analyzeVehicleCritical,
      estimateMarketValue, getVinAnalysisReport, chatWithExpert, hkey, jsOrString,
      jsTrim_empty]

/-- Witness for C1 at concrete inputs (both the absent and the
empty-string reply, one conjunct exercised through the theorem). -/
theorem emptyReplyPolicyWitness :
    analyzeVehicleByVin (some "k") "WVWZZZ1KZAW000001" (fun _ => none) = .ok (.obj []) ∧
    analyzeVehicleDetails (some "k") "img" "VW" (fun _ => none) = .ok (.obj []) ∧
    analyzeVehicleCritical (some "k") "img" "vin" (fun _ => none) = .error (.error "IA_EMPTY_RESPONSE") ∧
    estimateMarketValue (some "k") {} (fun _ => none) = .error (.error "IA_ESTIMATION_FAILED") ∧
    JSError.error "IA_EMPTY_RESPONSE" ≠ JSError.error "IA_ESTIMATION_FAILED" ∧
    getVinAnalysisReport (some "k") "WVWZZZ1KZAW000001" (fun _ => none) = .ok "Impossible de générer le rapport pour ce VIN." ∧
    chatWithExpert (some "k") [] "bonjour" (fun _ => none) = .ok "Désolé, je n'ai pas pu traiter votre demande." :=
  emptyReplyPolicy (some "k") rfl none (Or.inl rfl) "WVWZZZ1KZAW000001" "img" "VW"
    "bonjour" "vin" [] {}

/-- C6 — With the API key absent from the process configuration, every one
of the six operations raises the missing-credential configuration error,
and does so before any oracle request is attempted: the result is the same
for every oracle function, which is therefore never consulted. -/
theorem missingKeyRaisedBeforeRequest (vin img brand question : String) (mode : ScanType)
    (history : List Content) (vehicle : VehicleAnalysis)
    (o1 o2 o3 o4 o5 : OracleRequest → Option String) (oc : ChatRequest → Option String) :
    analyzeVehicleByVin none vin o1 = .error missingKeyError ∧
    analyzeVehicleCritical none img mode o2 = .error missingKeyError ∧
    analyzeVehicleDetails none img brand o3 = .error missingKeyError ∧
    getVinAnalysisReport none vin o4 = .error missingKeyError ∧
    chatWithExpert none history question oc = .error missingKeyError ∧
    estimateMarketValue none vehicle o5 = .error missingKeyError :=
  ⟨rfl, rfl, rfl, rfl, rfl, rfl⟩

/-- C9 — A whitespace-only (non-empty but blank) reply is not treated as
empty by the four JSON-returning operations: each trims, then JSON-parses
the now-empty text and raises the generic parse failure (not its
empty-reply behaviour); `getVinAnalysisReport` and `chatWithExpert` trim
before their emptiness test and return their fixed fallback strings. -/
theorem whitespaceReplyParseFailure (apiKey : Option String)
    (hkey : apiKeyMissing apiKey = false) (t : String) (hne : t ≠ "")
    (hws : ∀ c ∈ t.data, isWS c = true)
    (vin img brand question : String) (mode : ScanType)
    (history : List Content) (vehicle : VehicleAnalysis) :
    analyzeVehicleByVin apiKey vin (fun _ => some t) = .error .syntaxError ∧
    analyzeVehicleDetails apiKey img brand (fun _ => some t) = .error .syntaxError ∧
    analyzeVehicleCritical apiKey img mode (fun _ => some t) = .error .syntaxError ∧
    estimateMarketValue apiKey vehicle (fun _ => some t) = .error .syntaxError ∧
    getVinAnalysisReport apiKey vin (fun _ => some t) = .ok "Impossible de générer le rapport pour ce VIN." ∧
    chatWithExpert apiKey history question (fun _ => some t) = .ok "Désolé, je n'ai pas pu traiter votre demande." := by
  have htrim : jsTrim t = "" := jsTrim_eq_empty hws
  refine ⟨?_, ?_, ?_, ?_, ?_, ?_⟩ <;>
    simp [analyzeVehicleByVin, analyzeVehicleDetails, analyzeVehicleCritical,
      estimateMarketValue, getVinAnalysisReport, chatWithExpert, hkey, hne, htrim,
      jsonParse_empty, jsOrString]

/-- Witness for C9 at the single-space reply. -/
theorem whitespaceReplyParseFailureWitness :
    analyzeVehicleByVin (some "k") "V" (fun _ => some " ") = .error .syntaxError ∧
    analyzeVehicleDetails (some "k") "img" "VW" (fun _ => some " ") = .error .syntaxError ∧
    analyzeVehicleCritical (some "k") "img" "vin" (fun _ => some " ") = .error .syntaxError ∧
    estimateMarketValue (some "k") {} (fun _ => some " ") = .error .syntaxError ∧
    getVinAnalysisReport (some "k") "V" (fun _ => some " ") = .ok "Impossible de générer le rapport pour ce VIN." ∧
    chatWithExpert (some "k") [] "q" (fun _ => some " ") = .ok "Désolé, je n'ai pas pu traiter votre demande." :=
  whitespaceReplyParseFailure (some "k") rfl " " (by decide) (by decide) "V" "img" "VW"
    "q" "vin" [] {}

/-- C10 — Whenever `analyzeVehicleCritical` returns successfully, the
result is never a bare partial: it is an object carrying exactly the seven
fields vin, brand, model, deductionReasoning, yearOfManufacture,
licensePlate, registrationYear — whatever fields the oracle supplied — and
every one of them except possibly deductionReasoning is a string. -/
theorem criticalResultShape (apiKey : Option String) (img : String) (mode : ScanType)
    (oracle : OracleRequest → Option String) (r : JSValue)
    (h : analyzeVehicleCritical apiKey img mode oracle = .ok r) :
    ∃ vin brand model reasoning year plate reg,
      r = .obj
        [ ("vin", .str vin), ("brand", .str brand), ("model", .str model),
          ("deductionReasoning", reasoning),
          ("yearOfManufacture", .str year), ("licensePlate", .str plate),
          ("registrationYear", .str reg) ] := by
  unfold analyzeVehicleCritical at h
  repeat' split at h
  all_goals cases h
  all_goals exact ⟨_, _, _, _, _, _, _, rfl⟩

/-- Witness for C10 at the empty-object reply. -/
theorem criticalResultShapeWitness :
    ∃ vin brand model reasoning year plate reg,
      JSValue.obj
        [ ("vin", .str ""), ("brand", .str "INCONNU"), ("model", .str "ANALYSE..."),
          ("deductionReasoning", .str ""),
          ("yearOfManufacture", .str "N/A"), ("licensePlate", .str ""),
          ("registrationYear", .str "") ] = .obj
        [ ("vin", .str vin), ("brand", .str brand), ("model", .str model),
          ("deductionReasoning", reasoning),
          ("yearOfManufacture", .str year), ("licensePlate", .str plate),
          ("registrationYear", .str reg) ] :=
  criticalResultShape (some "k") "" "vin" (fun _ => some "\x7b\x7d") _ rfl

/-- Unfolding of `analyzeVehicleCritical`'s success branch: with the key
present, a non-empty reply that parses to a non-null value, the result is
the post-processed object. -/
theorem analyzeVehicleCritical_ok {apiKey : Option String} {img : String} {mode : ScanType}
    {oracle : OracleRequest → Option String} {t : String} {rawData : JSValue}
    (hkey : apiKeyMissing apiKey = false)
    (horacle : oracle (analyzeVehicleCriticalRequest img mode) = some t)
    (hne : t ≠ "") (hparse : jsonParse (jsTrim t) = some rawData)
    (hnn : rawData ≠ .null) :
    analyzeVehicleCritical apiKey img mode oracle = .ok (.obj
      [ ("vin", .str (jsToUpperCase (jsReplaceNonAlnum (jsStringRec (jsOr (jsGet rawData "vin") (.str "")))))),
        ("brand", .str (jsToUpperCase (jsStringRec (jsOr (jsGet rawData "brand") (.str "Inconnu"))))),
        ("model", .str (jsToUpperCase (jsStringRec (jsOr (jsGet rawData "model") (.str "ANALYSE..."))))),
        ("deductionReasoning", jsOr (jsGet rawData "deductionReasoning") (.str "")),
        ("yearOfManufacture", .str (jsStringRec (jsOr (jsGet rawData "yearOfManufacture") (.str "N/A")))),
        ("licensePlate", .str (jsStringRec (jsOr (jsGet rawData "licensePlate") (.str "")))),
        ("registrationYear", .str (jsStringRec (jsOr (jsGet rawData "registrationYear") (.str "")))) ]) := by
  unfold analyzeVehicleCritical
  rw [hkey, horacle]
  simp only [Bool.false_eq_true, if_false, hne, if_neg, hparse]

/-- C4 (corrected) — In `analyzeVehicleCritical`'s post-processing the
year and plate fields are each coerced to a string and are present in
every successful return, but their fallbacks differ: whenever
yearOfManufacture is missing from the parsed reply its returned value is
the sentinel "N/A", and whenever licensePlate or registrationYear is
missing its returned value is the empty string "" — each field on its own,
whatever the other fields hold. -/
theorem criticalYearPlateCoercion (apiKey : Option String) (img : String) (mode : ScanType)
    (oracle : OracleRequest → Option String) (t : String) (rawData : JSValue)
    (hkey : apiKeyMissing apiKey = false)
    (horacle : oracle (analyzeVehicleCriticalRequest img mode) = some t)
    (hne : t ≠ "") (hparse : jsonParse (jsTrim t) = some rawData)
    (hnn : rawData ≠ .null) :
    ∃ (vin brand model : String) (reasoning : JSValue) (year plate reg : String),
      analyzeVehicleCritical apiKey img mode oracle = .ok (.obj
        [ ("vin", .str vin), ("brand", .str brand), ("model", .str model),
          ("deductionReasoning", reasoning),
          ("yearOfManufacture", .str year), ("licensePlate", .str plate),
          ("registrationYear", .str reg) ]) ∧
      (jsGet rawData "yearOfManufacture" = none → year = "N/A") ∧
      (jsGet rawData "licensePlate" = none → plate = "") ∧
      (jsGet rawData "registrationYear" = none → reg = "") := by
  have h := analyzeVehicleCritical_ok hkey horacle hne hparse hnn
  refine ⟨_, _, _, _, _, _, _, h, ?_, ?_, ?_⟩
  · intro hyear
    rw [hyear]
    rfl
  · intro hplate
    rw [hplate]
    rfl
  · intro hreg
    rw [hreg]
    rfl

/-- Counterexample to C4 as frozen: on the empty-object reply the missing
yearOfManufacture is returned as the sentinel "N/A", not as the empty
string the claim asserts for all three year/plate fields. -/
theorem criticalYearFallbackCounterexample :
    analyzeVehicleCritical (some "k") "img" "vin" (fun _ => some "\x7b\x7d") =
      .ok (.obj [("vin", .str ""), ("brand", .str "INCONNU"), ("model", .str "ANALYSE..."),
        ("deductionReasoning", .str ""), ("yearOfManufacture", .str "N/A"),
        ("licensePlate", .str ""), ("registrationYear", .str "")]) ∧
    ("N/A" : String) ≠ "" :=
  ⟨rfl, by decide⟩

/-- Witness for C4's amended statement at a reply where licensePlate is
present but the year fields are missing. -/
theorem criticalYearPlateCoercionWitness :
    ∃ (vin brand model : String) (reasoning : JSValue) (year plate reg : String),
      analyzeVehicleCritical (some "k") "img" "vin"
          (fun _ => some "\x7b\"licensePlate\":\"A-1\"\x7d") = .ok (.obj
        [ ("vin", .str vin), ("brand", .str brand), ("model", .str model),
          ("deductionReasoning", reasoning),
          ("yearOfManufacture", .str year), ("licensePlate", .str plate),
          ("registrationYear", .str reg) ]) ∧
      (jsGet (.obj [("licensePlate", JSValue.str "A-1")]) "yearOfManufacture" = none →
        year = "N/A") ∧
      (jsGet (.obj [("licensePlate", JSValue.str "A-1")]) "licensePlate" = none →
        plate = "") ∧
      (jsGet (.obj [("licensePlate", JSValue.str "A-1")]) "registrationYear" = none →
        reg = "") :=
  criticalYearPlateCoercion (some "k") "img" "vin" _ "\x7b\"licensePlate\":\"A-1\"\x7d"
    (.obj [("licensePlate", .str "A-1")]) rfl rfl (by decide) rfl (by simp)

/-- C5 (corrected) — When the parsed reply's brand field is missing or
empty, `analyzeVehicleCritical` substitutes the sentinel "Inconnu" and
then uppercases it: the returned brand is "INCONNU" (never undefined). -/
theorem criticalBrandSentinel (apiKey : Option String) (img : String) (mode : ScanType)
    (oracle : OracleRequest → Option String) (t : String) (rawData : JSValue)
    (hkey : apiKeyMissing apiKey = false)
    (horacle : oracle (analyzeVehicleCriticalRequest img mode) = some t)
    (hne : t ≠ "") (hparse : jsonParse (jsTrim t) = some rawData)
    (hnn : rawData ≠ .null)
    (hbrand : jsGet rawData "brand" = none ∨ jsGet rawData "brand" = some (.str "")) :
    ∃ vin model reasoning year plate reg,
      analyzeVehicleCritical apiKey img mode oracle = .ok (.obj
        [ ("vin", .str vin), ("brand", .str "INCONNU"), ("model", .str model),
          ("deductionReasoning", reasoning),
          ("yearOfManufacture", .str year), ("licensePlate", .str plate),
          ("registrationYear", .str reg) ]) := by
  have h := analyzeVehicleCritical_ok hkey horacle hne hparse hnn
  rcases hbrand with hb | hb <;> rw [hb] at h <;> exact ⟨_, _, _, _, _, _, h⟩

/-- Counterexample to C5 as frozen: on the reply whose brand is the empty
string the returned brand is the uppercased "INCONNU", which is not the
claim's "Inconnu". -/
theorem criticalBrandSentinelCounterexample :
    analyzeVehicleCritical (some "k") "img" "vin" (fun _ => some "\x7b\"brand\":\"\"\x7d") =
      .ok (.obj [("vin", .str ""), ("brand", .str "INCONNU"), ("model", .str "ANALYSE..."),
        ("deductionReasoning", .str ""), ("yearOfManufacture", .str "N/A"),
        ("licensePlate", .str ""), ("registrationYear", .str "")]) ∧
    ("INCONNU" : String) ≠ "Inconnu" :=
  ⟨rfl, by decide⟩

/-- Witness for C5's amended statement at the empty-brand reply. -/
theorem criticalBrandSentinelWitness :
    ∃ vin model reasoning year plate reg,
      analyzeVehicleCritical (some "k") "img" "vin" (fun _ => some "\x7b\"brand\":\"\"\x7d") = .ok (.obj
        [ ("vin", .str vin), ("brand", .str "INCONNU"), ("model", .str model),
          ("deductionReasoning", reasoning),
          ("yearOfManufacture", .str year), ("licensePlate", .str plate),
          ("registrationYear", .str reg) ]) :=
  criticalBrandSentinel (some "k") "img" "vin" _ "\x7b\"brand\":\"\"\x7d"
    (.obj [("brand", .str "")]) rfl rfl (by decide) rfl (by simp) (Or.inr rfl)

set_option maxRecDepth 40000 in
/-- C3 — The instruction text of `getVinAnalysisReport` contains a
decomposition table whose WMI row holds exactly characters [0,3) of the
input VIN, whose VDS row holds exactly characters [3,9), and whose VIS row
holds exactly characters [9,17), verbatim and regardless of the VIN's
validity or length (`substring` clamps to the string's length); in
particular for "WVWZZZ1KZAW000001" the VIS entry is "AW000001". -/
theorem reportPromptDecomposition (vin : String) :
    (∃ pre post : String, getVinAnalysisReportSystemPrompt vin =
      pre ++ ("| **WMI** | " ++ jsSubstring vin 0 3 ++ " | Constructeur / Pays |") ++ post) ∧
    (∃ pre post : String, getVinAnalysisReportSystemPrompt vin =
      pre ++ ("| **VDS** | " ++ jsSubstring vin 3 9 ++ " | Caractéristiques (Châssis, Moteur) |") ++ post) ∧
    (∃ pre post : String, getVinAnalysisReportSystemPrompt vin =
      pre ++ ("| **VIS** | " ++ jsSubstring vin 9 17 ++ " | Identification Unique / Usine |") ++ post) ∧
    jsSubstring vin 0 3 = String.mk (vin.data.take 3) ∧
    jsSubstring vin 3 9 = String.mk ((vin.data.drop 3).take 6) ∧
    jsSubstring vin 9 17 = String.mk ((vin.data.drop 9).take 8) ∧
    jsSubstring "WVWZZZ1KZAW000001" 9 17 = "AW000001" := by
  refine ⟨⟨"Tu es KHABIR, expert automobile officiel au Maroc.\n       Rédige un rapport d'expertise technique pour le VIN : " ++ vin ++ ".\n       Le rapport doit rassurer l'acheteur et prouver la conformité.\n       \n       STRUCTURE DU RAPPORT (Format Markdown) :\n       \n       ### 1. 🚘 Identité & Conformité\n       - **Marque/Modèle** : [Nom]\n       - **Origine** : [Pays détecté via WMI]\n       - **Importateur Maroc** : (Citer l'importateur officiel: CAC pour VAG, Sopriam pour PSA, Auto Nejma pour Mercedes, Smeia pour BMW, etc.)\n       \n       ### 2. ⚙️ Analyse Technique (Déduction VIN)\n       - **Moteur** : [Déduction via VDS]\n       - **Année Modèle** : [Déduction via 10ème caractère]\n       - *Note : Cette analyse respecte la norme NM ISO 3779 en vigueur au Maroc.*\n       \n       ### 3. 🔍 Décodage Détaillé\n       | Section | Code | Signification |\n       | :--- | :--- | :--- |\n       ",
      "\n       | **VDS** | " ++ jsSubstring vin 3 9 ++ " | Caractéristiques (Châssis, Moteur) |\n       | **VIS** | " ++ jsSubstring vin 9 17 ++ " | Identification Unique / Usine |\n       \n       ### 4. ⚠️ Points de Vigilance (Spécifique Modèle)\n       - Lister 2-3 points à surveiller sur ce modèle précis (ex: distribution, boîte auto, etc.).\n       \n       Ton expert et professionnel. Pas de bla-bla générique.", ?_⟩,
    ⟨"Tu es KHABIR, expert automobile officiel au Maroc.\n       Rédige un rapport d'expertise technique pour le VIN : " ++ vin ++ ".\n       Le rapport doit rassurer l'acheteur et prouver la conformité.\n       \n       STRUCTURE DU RAPPORT (Format Markdown) :\n       \n       ### 1. 🚘 Identité & Conformité\n       - **Marque/Modèle** : [Nom]\n       - **Origine** : [Pays détecté via WMI]\n       - **Importateur Maroc** : (Citer l'importateur officiel: CAC pour VAG, Sopriam pour PSA, Auto Nejma pour Mercedes, Smeia pour BMW, etc.)\n       \n       ### 2. ⚙️ Analyse Technique (Déduction VIN)\n       - **Moteur** : [Déduction via VDS]\n       - **Année Modèle** : [Déduction via 10ème caractère]\n       - *Note : Cette analyse respecte la norme NM ISO 3779 en vigueur au Maroc.*\n       \n       ### 3. 🔍 Décodage Détaillé\n       | Section | Code | Signification |\n       | :--- | :--- | :--- |\n       | **WMI** | " ++ jsSubstring vin 0 3 ++ " | Constructeur / Pays |\n       ",
      "\n       | **VIS** | " ++ jsSubstring vin 9 17 ++ " | Identification Unique / Usine |\n       \n       ### 4. ⚠️ Points de Vigilance (Spécifique Modèle)\n       - Lister 2-3 points à surveiller sur ce modèle précis (ex: distribution, boîte auto, etc.).\n       \n       Ton expert et professionnel. Pas de bla-bla générique.", ?_⟩,
    ⟨"Tu es KHABIR, expert automobile officiel au Maroc.\n       Rédige un rapport d'expertise technique pour le VIN : " ++ vin ++ ".\n       Le rapport doit rassurer l'acheteur et prouver la conformité.\n       \n       STRUCTURE DU RAPPORT (Format Markdown) :\n       \n       ### 1. 🚘 Identité & Conformité\n       - **Marque/Modèle** : [Nom]\n       - **Origine** : [Pays détecté via WMI]\n       - **Importateur Maroc** : (Citer l'importateur officiel: CAC pour VAG, Sopriam pour PSA, Auto Nejma pour Mercedes, Smeia pour BMW, etc.)\n       \n       ### 2. ⚙️ Analyse Technique (Déduction VIN)\n       - **Moteur** : [Déduction via VDS]\n       - **Année Modèle** : [Déduction via 10ème caractère]\n       - *Note : Cette analyse respecte la norme NM ISO 3779 en vigueur au Maroc.*\n       \n       ### 3. 🔍 Décodage Détaillé\n       | Section | Code | Signification |\n       | :--- | :--- | :--- |\n       | **WMI** | " ++ jsSubstring vin 0 3 ++ " | Constructeur / Pays |\n       | **VDS** | " ++ jsSubstring vin 3 9 ++ " | Caractéristiques (Châssis, Moteur) |\n       ",
      "\n       \n       ### 4. ⚠️ Points de Vigilance (Spécifique Modèle)\n       - Lister 2-3 points à surveiller sur ce modèle précis (ex: distribution, boîte auto, etc.).\n       \n       Ton expert et professionnel. Pas de bla-bla générique.", ?_⟩,
    rfl, ?_, ?_, rfl⟩
  · unfold getVinAnalysisReportSystemPrompt
    simp only [String.append_assoc]
    rfl
  · unfold getVinAnalysisReportSystemPrompt
    simp only [String.append_assoc]
    rfl
  · unfold getVinAnalysisReportSystemPrompt
    simp only [String.append_assoc]
    rfl
  · unfold jsSubstring
    rw [List.take_drop]
  · unfold jsSubstring
    rw [List.take_drop]

/-- C7 — Pass-through: when the oracle reply is the JSON serialization of
an object, `analyzeVehicleByVin` and `analyzeVehicleDetails` return exactly
that object — every field, including ones not declared in the schema or of
unexpected type, appears unmodified, with no normalization and no schema
re-validation. -/
theorem parsedReplyPassthrough (apiKey : Option String) (hkey : apiKeyMissing apiKey = false)
    (vin img brand : String) (fields : List (String × JSValue)) :
    analyzeVehicleByVin apiKey vin (fun _ => some (jsonStringify (.obj fields))) =
      .ok (.obj fields) ∧
    analyzeVehicleDetails apiKey img brand (fun _ => some (jsonStringify (.obj fields))) =
      .ok (.obj fields) := by
  have hne := jsonStringify_obj_ne_empty fields
  have htrim := jsTrim_jsonStringify_obj fields
  have hparse := jsonParse_jsonStringify (.obj fields)
  constructor <;>
    simp [analyzeVehicleByVin, analyzeVehicleDetails, hkey, hne, htrim, hparse]

/-- Witness for C7: a reply carrying a schema field, an undeclared field
and a non-string value comes back exactly as sent. -/
theorem parsedReplyPassthroughWitness :
    analyzeVehicleByVin (some "k") "V"
        (fun _ => some (jsonStringify (.obj [("brand", .str "VW"), ("unexpected", .num 7)]))) =
      .ok (.obj [("brand", .str "VW"), ("unexpected", .num 7)]) ∧
    analyzeVehicleDetails (some "k") "img" "VW"
        (fun _ => some (jsonStringify (.obj [("brand", .str "VW"), ("unexpected", .num 7)]))) =
      .ok (.obj [("brand", .str "VW"), ("unexpected", .num 7)]) :=
  parsedReplyPassthrough (some "k") rfl "V" "img" "VW"
    [("brand", .str "VW"), ("unexpected", .num 7)]

/-- Order on characters is the order of their code points. -/
theorem char_le_iff {a b : Char} : a ≤ b ↔ a.toNat ≤ b.toNat := by
  rw [Char.le_def, UInt32.le_def, BitVec.le_def]
  rfl

/-- Uppercasing a character kept by the `[A-Z0-9]` (case-insensitive)
filter lands in `A`-`Z` or `0`-`9`. -/
theorem toUpper_of_vinKeep {c : Char} (h : isVinKeep c = true) :
    ('A' ≤ c.toUpper ∧ c.toUpper ≤ 'Z') ∨ ('0' ≤ c.toUpper ∧ c.toUpper ≤ '9') := by
  have hd := of_decide_eq_true h
  rcases hd with ⟨h1, h2⟩ | ⟨h1, h2⟩ | ⟨h1, h2⟩
  · left
    have hA : 65 ≤ c.toNat := char_le_iff.mp h1
    have hZ : c.toNat ≤ 90 := char_le_iff.mp h2
    have hu : c.toUpper = c := by
      unfold Char.toUpper
      rw [if_neg]
      intro hc
      omega
    rw [hu]
    exact ⟨h1, h2⟩
  · left
    have ha : 97 ≤ c.toNat := char_le_iff.mp h1
    have hz : c.toNat ≤ 122 := char_le_iff.mp h2
    have hu : c.toUpper = Char.ofNat (c.toNat - 32) := by
      unfold Char.toUpper
      rw [if_pos]
      exact ⟨ha, hz⟩
    have hv : (Char.ofNat (c.toNat - 32)).toNat = c.toNat - 32 := charToNat_ofNat (by omega)
    rw [hu]
    constructor
    · refine char_le_iff.mpr ?_
      rw [hv]
      show 65 ≤ c.toNat - 32
      omega
    · refine char_le_iff.mpr ?_
      rw [hv]
      show c.toNat - 32 ≤ 90
      omega
  · right
    have h0 : 48 ≤ c.toNat := char_le_iff.mp h1
    have h9 : c.toNat ≤ 57 := char_le_iff.mp h2
    have hu : c.toUpper = c := by
      unfold Char.toUpper
      rw [if_neg]
      intro hc
      omega
    rw [hu]
    exact ⟨h1, h2⟩

/-- Every character of the normalized VIN is an uppercase letter or a
digit. -/
theorem vin_chars_range (s : String) :
    ∀ c ∈ (jsToUpperCase (jsReplaceNonAlnum s)).data,
      ('A' ≤ c ∧ c ≤ 'Z') ∨ ('0' ≤ c ∧ c ≤ '9') := by
  intro c hc
  rw [show (jsToUpperCase (jsReplaceNonAlnum s)).data =
    (s.data.filter isVinKeep).map Char.toUpper from rfl] at hc
  obtain ⟨c', hc', rfl⟩ := List.mem_map.mp hc
  exact toUpper_of_vinKeep (List.of_mem_filter hc')

/-- A present non-empty-or-empty string field survives `x || ""`. -/
theorem jsOr_str_empty (s : String) : jsOr (some (.str s)) (.str "") = .str s := by
  by_cases h : s = ""
  · subst h
    rfl
  · simp [jsOr, truthy, bne, h]

/-- The alphanumeric filter keeps a run of letters `A`. -/
theorem filter_isVinKeep_replicate (n : Nat) :
    (List.replicate n 'A').filter isVinKeep = List.replicate n 'A' := by
  induction n with
  | zero => rfl
  | succ m ihm =>
    simp only [List.replicate_succ, List.filter_cons, ihm]
    rw [if_pos (by decide)]

/-- C2 — The vin field of every record `analyzeVehicleCritical` returns
contains only characters in `[A-Z0-9]`, and its length is unconstrained:
for every n there is an oracle reply yielding a vin of length n (so in
particular no 17-character check is applied). -/
theorem criticalVinAlphanumUnbounded :
    (∀ (apiKey : Option String) (img : String) (mode : ScanType)
        (oracle : OracleRequest → Option String) (fields : List (String × JSValue)),
      analyzeVehicleCritical apiKey img mode oracle = .ok (.obj fields) →
      ∃ s, jsGetField fields "vin" = some (.str s) ∧
        ∀ c ∈ s.data, ('A' ≤ c ∧ c ≤ 'Z') ∨ ('0' ≤ c ∧ c ≤ '9')) ∧
    (∀ n : Nat, ∃ (fields : List (String × JSValue)) (s : String),
      analyzeVehicleCritical (some "k") "img" "vin"
          (fun _ => some (jsonStringify
            (.obj [("vin", .str (String.mk (List.replicate n 'A')))]))) =
        .ok (.obj fields) ∧
      jsGetField fields "vin" = some (.str s) ∧ s.length = n) := by
  constructor
  · intro apiKey img mode oracle fields h
    unfold analyzeVehicleCritical at h
    repeat' split at h
    all_goals cases h
    all_goals exact ⟨_, rfl, vin_chars_range _⟩
  · intro n
    have hne := jsonStringify_obj_ne_empty [("vin", .str (String.mk (List.replicate n 'A')))]
    have htrim := jsTrim_jsonStringify_obj [("vin", .str (String.mk (List.replicate n 'A')))]
    have hparse0 := jsonParse_jsonStringify (.obj [("vin", .str (String.mk (List.replicate n 'A')))])
    have h := @analyzeVehicleCritical_ok (some "k") "img" "vin"
      (fun _ => some (jsonStringify (.obj [("vin", .str (String.mk (List.replicate n 'A')))])))
      (jsonStringify (.obj [("vin", .str (String.mk (List.replicate n 'A')))]))
      (.obj [("vin", .str (String.mk (List.replicate n 'A')))]) rfl rfl hne
      (by rw [htrim]; exact hparse0) (by simp)
    refine ⟨_, _, h, rfl, ?_⟩
    rw [show jsGet (JSValue.obj [("vin", .str (String.mk (List.replicate n 'A')))]) "vin" =
      some (.str (String.mk (List.replicate n 'A'))) from rfl, jsOr_str_empty]
    rw [show jsStringRec (.str (String.mk (List.replicate n 'A'))) =
      String.mk (List.replicate n 'A') from rfl]
    rw [show (jsToUpperCase (jsReplaceNonAlnum (String.mk (List.replicate n 'A')))).length =
      (((List.replicate n 'A').filter isVinKeep).map Char.toUpper).length from rfl]
    rw [List.length_map, filter_isVinKeep_replicate, List.length_replicate]

/-- Witness for C2: a reply whose vin mixes cases, punctuation and digits
comes back stripped and uppercased, and a length-17 vin is obtainable. -/
theorem criticalVinAlphanumUnboundedWitness :
    (∃ s, jsGetField
        [ ("vin", JSValue.str "AB1C"), ("brand", .str "INCONNU"), ("model", .str "ANALYSE..."),
          ("deductionReasoning", .str ""), ("yearOfManufacture", .str "N/A"),
          ("licensePlate", .str ""), ("registrationYear", .str "") ] "vin" = some (.str s) ∧
      ∀ c ∈ s.data, ('A' ≤ c ∧ c ≤ 'Z') ∨ ('0' ≤ c ∧ c ≤ '9')) ∧
    (∃ (fields : List (String × JSValue)) (s : String),
      analyzeVehicleCritical (some "k") "img" "vin"
          (fun _ => some (jsonStringify
            (.obj [("vin", .str (String.mk (List.replicate 17 'A')))]))) =
        .ok (.obj fields) ∧
      jsGetField fields "vin" = some (.str s) ∧ s.length = 17) :=
  ⟨criticalVinAlphanumUnbounded.1 (some "k") "img" "vin"
      (fun _ => some "\x7b\"vin\":\"ab!1c\"\x7d") _ rfl,
    criticalVinAlphanumUnbounded.2 17⟩

/-- The first segment `split` produces is the run up to the first
separator. -/
theorem splitChar_head (sep : Char) (l : List Char) :
    ∃ gs, splitChar sep l = (l.takeWhile (fun c => !(c == sep))) :: gs := by
  induction l with
  | nil => exact ⟨[], rfl⟩
  | cons c cs ih =>
    by_cases h : c = sep
    · refine ⟨splitChar sep cs, ?_⟩
      simp [splitChar, h, List.takeWhile_cons]
    · obtain ⟨gs, hgs⟩ := ih
      refine ⟨gs, ?_⟩
      simp [splitChar, hgs, List.takeWhile_cons, h]

/-- The second segment `split` produces: the run between the first
separator and the next one (`none` when there is no separator at all). -/
theorem splitChar_get1 (sep : Char) (l : List Char) :
    (splitChar sep l).get? 1 =
      (match l.dropWhile (fun c => !(c == sep)) with
      | [] => none
      | _ :: after => some (after.takeWhile (fun c => !(c == sep)))) := by
  induction l with
  | nil => rfl
  | cons c cs ih =>
    by_cases h : c = sep
    · obtain ⟨gs, hgs⟩ := splitChar_head sep cs
      simp [splitChar, h, hgs, List.dropWhile_cons]
    · obtain ⟨gs, hgs⟩ := splitChar_head sep cs
      rw [hgs] at ih
      simp only [splitChar, hgs, List.dropWhile_cons] at ih ⊢
      simp only [h, if_neg h, Bool.not_eq_true] at ih ⊢
      simpa [h] using ih

/-- Characterization of the forwarded inline payload, independent of the
`split` recursion: the text between the first and second comma when the
input has a comma and that text is non-empty, the input itself otherwise. -/
theorem stripDataUri_eq (s : String) :
    stripDataUriPayload s =
      (match s.data.dropWhile (fun c => !(c == ',')) with
      | [] => s
      | _ :: after =>
        if after.takeWhile (fun c => !(c == ',')) = [] then s
        else String.mk (after.takeWhile (fun c => !(c == ',')))) := by
  unfold stripDataUriPayload jsSplit
  rw [List.get?_map, splitChar_get1]
  cases hd : s.data.dropWhile (fun c => !(c == ',')) with
  | nil => rfl
  | cons c after =>
    by_cases hX : after.takeWhile (fun c => !(c == ',')) = []
    · simp [jsOrString, hX]
    · have hne : ¬(String.mk (after.takeWhile (fun c => !(c == ','))) = "") := by
        intro he
        exact hX (by simpa [String.ext_iff] using he)
      simp [jsOrString, hX, hne]

/-- C8 (corrected) — Both image functions forward
`base64Image.split(',')[1] || base64Image` as the inline payload: the
second comma-separated segment (the text between the first and second
comma) when it exists and is non-empty, and the whole input otherwise.
This is not everything after the first comma: a second comma truncates
the forwarded payload. -/
theorem inlineDataSecondSegment (img brand : String) (mode : ScanType) :
    (analyzeVehicleCriticalRequest img mode).parts.head? =
      some (.inlineData "image/jpeg" (stripDataUriPayload img)) ∧
    (analyzeVehicleDetailsRequest img brand).parts.head? =
      some (.inlineData "image/jpeg" (stripDataUriPayload img)) ∧
    stripDataUriPayload img =
      (match img.data.dropWhile (fun c => !(c == ',')) with
      | [] => img
      | _ :: after =>
        if after.takeWhile (fun c => !(c == ',')) = [] then img
        else String.mk (after.takeWhile (fun c => !(c == ',')))) :=
  ⟨rfl, rfl, stripDataUri_eq img⟩

/-- Counterexample to C8 as frozen: on input "a,b,c" the forwarded data is
"b" (the second comma-separated segment), not "b,c" (the portion after the
first comma) as the claim states. -/
theorem inlineDataMultiCommaCounterexample :
    (analyzeVehicleCriticalRequest "a,b,c" "vin").parts.head? =
      some (.inlineData "image/jpeg" "b") ∧
    ("b" : String) ≠ "b,c" :=
  ⟨rfl, by decide⟩

end AutoScan
